import Mathlib

/-!
Shallow embedding of the local_swap_space marketplace core
(local_swap_space_app/models.py, views.py, signals.py).

Users, items, likes, matches, chats and messages are modelled as rows in
lists; database primary keys are natural numbers drawn from a fresh-id
counter.  Each view function of views.py becomes a pure state transformer
returning the new state together with the outcome the view signals to the
user (success / info / warning / error message, 404, or permission denial).
Django cascade deletion (on_delete=CASCADE) is modelled explicitly where
the deleted rows can be referenced by others.
-/

namespace LSS

/-- A row of the Item model: primary key and owning user id
(name, description, category and status are irrelevant to the claims). -/
structure ItemR where
  id : Nat
  owner : Nat
  deriving Repr, DecidableEq

/-- A row of the Like model: primary key, liked item id, liking user id. -/
structure LikeR where
  id : Nat
  item : Nat
  liker : Nat
  deriving Repr, DecidableEq

/-- A row of the Match model: primary key and the two Like foreign keys. -/
structure MatchR where
  id : Nat
  like_one : Nat
  like_two : Nat
  deriving Repr, DecidableEq

/-- A row of the Chat model: primary key and the two participant user ids. -/
structure ChatR where
  id : Nat
  participant_one : Nat
  participant_two : Nat
  deriving Repr, DecidableEq

/-- A row of the Message model: primary key, chat id, sender id, text.
Send time is represented by the position in the message list, which is
append-only (sent_at is an auto timestamp and rows are never updated). -/
structure MessageR where
  id : Nat
  chat : Nat
  sender : Nat
  text : String
  deriving Repr, DecidableEq

/-- The database state: one list per relation plus a fresh primary-key
counter shared by all tables. -/
structure State where
  items : List ItemR
  likes : List LikeR
  matchRows : List MatchR
  chats : List ChatR
  messages : List MessageR
  nextId : Nat
  deriving Repr, DecidableEq

/-- Item lookup by primary key (get_object_or_404(Item, pk=...)). -/
def findItem (s : State) (itemId : Nat) : Option ItemR :=
  s.items.find? (fun it => it.id == itemId)

/-- The owner of an item, when the item exists. -/
def itemOwner (s : State) (itemId : Nat) : Option Nat :=
  (findItem s itemId).map (fun it => it.owner)

/-- Like lookup by primary key (foreign-key dereference). -/
def findLike (s : State) (likeId : Nat) : Option LikeR :=
  s.likes.find? (fun l => l.id == likeId)

/-- The liker of a like, when the like exists. -/
def likeLiker (s : State) (likeId : Nat) : Option Nat :=
  (findLike s likeId).map (fun l => l.liker)

/-- Chat lookup by primary key (get_object_or_404(Chat, ...)). -/
def findChat (s : State) (chatId : Nat) : Option ChatR :=
  s.chats.find? (fun c => c.id == chatId)

/-- Chat.objects.get_or_create(participant_one=x, participant_two=y):
returns the unchanged state and the id of the existing chat, or the state
with a freshly created chat appended together with its id. -/
def chatGetOrCreate (s : State) (x y : Nat) : State × Nat :=
  match s.chats.find? (fun c => c.participant_one == x && c.participant_two == y) with
  | some c => (s, c.id)
  | none =>
      ({ s with chats := s.chats ++ [⟨s.nextId, x, y⟩], nextId := s.nextId + 1 }, s.nextId)

/-- signals.py line 21: Like.objects.filter(item__owner=instance.liker,
liker=instance.item.owner). -/
def potentialLikes (s : State) (inst : LikeR) : List LikeR :=
  s.likes.filter (fun c => itemOwner s c.item == some inst.liker
    && some c.liker == itemOwner s inst.item)

/-- signals.py lines 24-25: does a Match already exist between the two
likes, in either direction. -/
def matchExistsBetween (s : State) (a b : Nat) : Bool :=
  s.matchRows.any (fun m => (m.like_one == a && m.like_two == b)
    || (m.like_one == b && m.like_two == a))

/-- One iteration of the loop in signals.py lines 22-31: for a candidate
reciprocal like, create the Match if missing, then get-or-create the Chat
for the user pair ordered lower id first. -/
def signalStep (inst : LikeR) (s : State) (c : LikeR) : State :=
  if matchExistsBetween s inst.id c.id then s
  else
    let s1 : State :=
      { s with matchRows := s.matchRows ++ [⟨s.nextId, inst.id, c.id⟩], nextId := s.nextId + 1 }
    (chatGetOrCreate s1 (Nat.min inst.liker c.liker) (Nat.max inst.liker c.liker)).1

/-- The body of the created-branch of the post_save handler: iterate over
the potential reciprocal likes (the queryset is evaluated once, at the
start of the loop). -/
def runSignal (s : State) (inst : LikeR) : State :=
  (potentialLikes s inst).foldl (signalStep inst) s

/-- signals.py create_match_and_check_chat: runs only when the Like row
was newly created. -/
def create_match_and_check_chat (s : State) (inst : LikeR) (created : Bool) : State :=
  if created then runSignal s inst else s

/-- Outcome signalled by the like_item view. -/
inductive LikeOutcome where
  | notFound
  | liked
  | alreadyLiked
  deriving Repr, DecidableEq

/-- views.py like_item: 404 when the item does not exist; otherwise
Like.objects.get_or_create(item=item, liker=user); on creation the
post_save signal fires with created=True. -/
def like_item (s : State) (itemId userId : Nat) : State × LikeOutcome :=
  match findItem s itemId with
  | none => (s, .notFound)
  | some _ =>
      match s.likes.find? (fun l => l.item == itemId && l.liker == userId) with
      | some _ => (s, .alreadyLiked)
      | none =>
          let newLike : LikeR := ⟨s.nextId, itemId, userId⟩
          let s1 : State := { s with likes := s.likes ++ [newLike], nextId := s.nextId + 1 }
          (create_match_and_check_chat s1 newLike true, .liked)

/-- Outcome signalled by the send_message view. -/
inductive SendOutcome where
  | notFound
  | sent
  | ignored
  deriving Repr, DecidableEq

/-- views.py send_message: 404 when the chat does not exist; a message is
created only when the posted text is truthy, i.e. a non-empty string; no
participant check is performed. -/
def send_message (s : State) (chatId senderId : Nat) (text : String) : State × SendOutcome :=
  match findChat s chatId with
  | none => (s, .notFound)
  | some _ =>
      if text ≠ "" then
        ({ s with messages := s.messages ++ [⟨s.nextId, chatId, senderId, text⟩],
                  nextId := s.nextId + 1 }, .sent)
      else (s, .ignored)

/-- The messages of a chat in send order, as produced by
ChatView.get_context_data (order_by sent_at over an append-only log). -/
def chatMessages (s : State) (chatId : Nat) : List MessageR :=
  s.messages.filter (fun m => m.chat == chatId)

/-- Outcome of the chat detail view. -/
inductive DetailOutcome where
  | notFound
  | denied
  | ok (chat : ChatR) (msgs : List MessageR)
  deriving Repr, DecidableEq

/-- ChatView.get_object / get_context_data: 404 when the chat does not
exist; PermissionDenied when the requester is neither participant;
otherwise the chat together with its messages in send order. -/
def chatDetail (s : State) (chatId userId : Nat) : DetailOutcome :=
  match findChat s chatId with
  | none => .notFound
  | some c =>
      if c.participant_one ≠ userId ∧ c.participant_two ≠ userId then .denied
      else .ok c (chatMessages s c.id)

/-- Outcome signalled by delete_chat_and_related_data. -/
inductive DeleteChatOutcome where
  | notFound
  | denied
  | deleted
  deriving Repr, DecidableEq

/-- views.py lines 903-910: the Matches to delete for a chat, those whose
like_one is a like by one participant and whose like_two is a like by the
other participant, in either order. -/
def matchesToDelete (s : State) (c : ChatR) : List MatchR :=
  let likesFromOne := s.likes.filter (fun l => l.liker == c.participant_one)
  let likesFromTwo := s.likes.filter (fun l => l.liker == c.participant_two)
  s.matchRows.filter (fun m =>
    (likesFromOne.any (fun l => l.id == m.like_one)
        && likesFromTwo.any (fun l => l.id == m.like_two))
    || (likesFromTwo.any (fun l => l.id == m.like_one)
        && likesFromOne.any (fun l => l.id == m.like_two)))

/-- Like.objects.filter(id__in=ids).delete(): removes the likes and, by
on_delete=CASCADE on Match.like_one and Match.like_two, every Match row
referencing one of the removed likes. -/
def deleteLikesCascade (s : State) (ids : List Nat) : State :=
  { s with likes := s.likes.filter (fun l => !(ids.contains l.id)),
           matchRows := s.matchRows.filter (fun m =>
             !(ids.contains m.like_one) && !(ids.contains m.like_two)) }

/-- match.delete(): removes the match row by primary key (a no-op when the
row was already removed by the cascade). -/
def deleteMatchRow (s : State) (mid : Nat) : State :=
  { s with matchRows := s.matchRows.filter (fun m => !(m.id == mid)) }

/-- One iteration of the deletion loop in views.py lines 913-916: delete
the two constituent likes of the match (with cascade), then the match. -/
def deleteChatStep (s : State) (m : MatchR) : State :=
  deleteMatchRow (deleteLikesCascade s [m.like_one, m.like_two]) m.id

/-- views.py delete_chat_and_related_data: 404 when the chat does not
exist; denial when the requester is not a participant; otherwise delete
the messages of the chat, then every match between the participants with
its constituent likes, then the chat itself. -/
def delete_chat_and_related_data (s : State) (chatId userId : Nat) :
    State × DeleteChatOutcome :=
  match findChat s chatId with
  | none => (s, .notFound)
  | some c =>
      if userId ≠ c.participant_one ∧ userId ≠ c.participant_two then (s, .denied)
      else
        let s1 : State := { s with messages := s.messages.filter (fun m => !(m.chat == c.id)) }
        let s2 : State := (matchesToDelete s1 c).foldl deleteChatStep s1
        ({ s2 with chats := s2.chats.filter (fun ch => !(ch.id == c.id)) }, .deleted)

/-- Outcome signalled by DeleteItemView.post. -/
inductive DeleteItemOutcome where
  | notFound
  | notOwner
  | inMatch
  | deleted
  deriving Repr, DecidableEq

/-- views.py line 468: Match.objects.filter(like_one__item=item).exists()
or Match.objects.filter(like_two__item=item).exists(). -/
def itemInMatch (s : State) (itemId : Nat) : Bool :=
  s.matchRows.any (fun m =>
      s.likes.any (fun l => l.id == m.like_one && l.item == itemId))
  || s.matchRows.any (fun m =>
      s.likes.any (fun l => l.id == m.like_two && l.item == itemId))

/-- views.py DeleteItemView.post: 404 when the item does not exist; error
when the requester is not the owner; warning (and no change) when the item
is part of a match; otherwise delete the item, its likes following by
cascade together with any matches referencing those likes. -/
def deleteItem (s : State) (itemId userId : Nat) : State × DeleteItemOutcome :=
  match findItem s itemId with
  | none => (s, .notFound)
  | some it =>
      if it.owner ≠ userId then (s, .notOwner)
      else if itemInMatch s itemId then (s, .inMatch)
      else
        let likeIds := (s.likes.filter (fun l => l.item == itemId)).map (fun l => l.id)
        let s1 : State := { s with items := s.items.filter (fun i => !(i.id == itemId)) }
        (deleteLikesCascade s1 likeIds, .deleted)

/-- One entry of the grouped match list returned by
MatchUserListView.get_queryset: the other user, the items the requesting
user liked from them, the items they liked from the requesting user, and
the chat id for the pair. -/
structure MatchGroup where
  other_user : Nat
  items_from_user : List Nat
  items_from_them : List Nat
  chat : Nat
  deriving Repr, DecidableEq

/-- One iteration of the grouping loop in MatchUserListView.get_queryset
(views.py lines 718-738): identify the other participant and the two
items; on the first occurrence of that other user, get-or-create the chat
for the pair keyed (min id, max id) and open a new group; afterwards add
the items to the sets of the existing group. -/
def mlStep (u : Nat) (acc : State × List MatchGroup) (m : MatchR) :
    State × List MatchGroup :=
  match findLike acc.1 m.like_one, findLike acc.1 m.like_two with
  | some l1, some l2 =>
      let s := acc.1
      let gs := acc.2
      let other : Nat := if l1.liker = u then l2.liker else l1.liker
      let itemFromUser : Nat := if l1.liker = u then l1.item else l2.item
      let itemFromThem : Nat := if l1.liker = u then l2.item else l1.item
      if gs.any (fun g => g.other_user == other) then
        (s, gs.map (fun g => if g.other_user == other then
            { g with items_from_user := g.items_from_user.insert itemFromUser,
                     items_from_them := g.items_from_them.insert itemFromThem }
          else g))
      else
        let r := chatGetOrCreate s (Nat.min u other) (Nat.max u other)
        (r.1, gs ++ [⟨other, [itemFromUser], [itemFromThem], r.2⟩])
  | _, _ => acc

/-- views.py lines 711-713: the matches where the requesting user is the
liker on either side. -/
def userMatches (s : State) (u : Nat) : List MatchR :=
  s.matchRows.filter (fun m =>
    likeLiker s m.like_one == some u || likeLiker s m.like_two == some u)

/-- MatchUserListView.get_queryset: the matches where the requesting user
is the liker on either side, grouped by the other participant; returns the
updated state (chats may be created) and the grouped list. -/
def matchUserList (s : State) (u : Nat) : State × List MatchGroup :=
  (userMatches s u).foldl (mlStep u) (s, [])

/-- The public mutating operations of the core (the state parts of the
views above). -/
inductive Op where
  | like (itemId userId : Nat)
  | send (chatId userId : Nat) (text : String)
  | delChat (chatId userId : Nat)
  | delItem (itemId userId : Nat)
  | listMatches (userId : Nat)
  deriving Repr, DecidableEq

/-- The state reached by one public operation. -/
def applyOp (s : State) : Op → State
  | .like i u => (like_item s i u).1
  | .send c u t => (send_message s c u t).1
  | .delChat c u => (delete_chat_and_related_data s c u).1
  | .delItem i u => (deleteItem s i u).1
  | .listMatches u => (matchUserList s u).1

/-- An initial state: a catalogue of items but no likes, matches, chats or
messages yet (those rows are only ever produced by the operations above). -/
def InitState (s : State) : Prop :=
  s.likes = [] ∧ s.matchRows = [] ∧ s.chats = [] ∧ s.messages = []

/-- States reachable from an initial state through the public operations. -/
inductive Reachable : State → Prop
  | init (s : State) (h : InitState s) : Reachable s
  | step (s : State) (op : Op) (h : Reachable s) : Reachable (applyOp s op)

/-- All primary keys in the state lie below the fresh-id counter. -/
def WfIds (s : State) : Prop :=
  (∀ it ∈ s.items, it.id < s.nextId) ∧
  (∀ l ∈ s.likes, l.id < s.nextId) ∧
  (∀ m ∈ s.matchRows, m.id < s.nextId ∧ m.like_one < s.nextId ∧ m.like_two < s.nextId) ∧
  (∀ c ∈ s.chats, c.id < s.nextId) ∧
  (∀ m ∈ s.messages, m.id < s.nextId)

/-! ## Observation functions used in the claim statements -/

/-- Does the like row with the given id carry the given item and liker. -/
def likeHas (s : State) (likeId itemId userId : Nat) : Bool :=
  match findLike s likeId with
  | some l => l.item == itemId && l.liker == userId
  | none => false

/-- How many Match rows pair a like on item i1 by u1 with a like on item
i2 by u2, in either order. -/
def matchesBetweenLikes (s : State) (i1 u1 i2 u2 : Nat) : Nat :=
  s.matchRows.countP (fun m =>
    (likeHas s m.like_one i1 u1 && likeHas s m.like_two i2 u2)
    || (likeHas s m.like_one i2 u2 && likeHas s m.like_two i1 u1))

/-- How many Chat rows exist for the unordered user pair a, b. -/
def countChatsFor (s : State) (a b : Nat) : Nat :=
  s.chats.countP (fun c =>
    (c.participant_one == a && c.participant_two == b)
    || (c.participant_one == b && c.participant_two == a))

/-- How many Like rows exist for the pair (item, liker). -/
def countLikesFor (s : State) (itemId userId : Nat) : Nat :=
  s.likes.countP (fun l => l.item == itemId && l.liker == userId)

/-! ## Generic fold helpers -/

theorem foldl_field_eq {α β : Type} (f : State → α → State) (g : State → β)
    (h : ∀ s a, g (f s a) = g s) :
    ∀ (l : List α) (s : State), g (l.foldl f s) = g s := by
  intro l
  induction l with
  | nil => intro s; rfl
  | cons a t ih => intro s; rw [List.foldl_cons, ih, h]

theorem foldl_pred_of_mem {α : Type} (f : State → α → State) (P : State → Prop) :
    ∀ (l : List α) (s : State), (∀ s a, a ∈ l → P s → P (f s a)) → P s → P (l.foldl f s) := by
  intro l
  induction l with
  | nil => intro s _ hP; exact hP
  | cons a t ih =>
      intro s h hP
      rw [List.foldl_cons]
      exact ih (f s a) (fun s b hb => h s b (List.mem_cons_of_mem a hb))
        (h s a (List.mem_cons_self a t) hP)

/-! ## Frame lemmas for the signal handler -/

theorem chatGetOrCreate_likes (s : State) (x y : Nat) :
    (chatGetOrCreate s x y).1.likes = s.likes := by
  unfold chatGetOrCreate
  split <;> rfl

theorem chatGetOrCreate_items (s : State) (x y : Nat) :
    (chatGetOrCreate s x y).1.items = s.items := by
  unfold chatGetOrCreate
  split <;> rfl

theorem chatGetOrCreate_matchRows (s : State) (x y : Nat) :
    (chatGetOrCreate s x y).1.matchRows = s.matchRows := by
  unfold chatGetOrCreate
  split <;> rfl

theorem chatGetOrCreate_messages (s : State) (x y : Nat) :
    (chatGetOrCreate s x y).1.messages = s.messages := by
  unfold chatGetOrCreate
  split <;> rfl

theorem chatGetOrCreate_chats_mono (s : State) (x y : Nat) :
    ∀ c ∈ s.chats, c ∈ (chatGetOrCreate s x y).1.chats := by
  intro c hc
  unfold chatGetOrCreate
  split
  · exact hc
  · exact List.mem_append_left _ hc

theorem chatGetOrCreate_provides (s : State) (x y : Nat) :
    ∃ c ∈ (chatGetOrCreate s x y).1.chats,
      c.id = (chatGetOrCreate s x y).2 ∧ c.participant_one = x ∧ c.participant_two = y := by
  unfold chatGetOrCreate
  split
  case h_1 c hc =>
      have hp := List.find?_some hc
      simp only [Bool.and_eq_true, beq_iff_eq] at hp
      exact ⟨c, List.mem_of_find?_eq_some hc, rfl, hp.1, hp.2⟩
  case h_2 =>
      refine ⟨⟨s.nextId, x, y⟩, ?_, rfl, rfl, rfl⟩
      simp

theorem signalStep_likes (inst : LikeR) (s : State) (c : LikeR) :
    (signalStep inst s c).likes = s.likes := by
  unfold signalStep
  split
  · rfl
  · rw [chatGetOrCreate_likes]

theorem signalStep_items (inst : LikeR) (s : State) (c : LikeR) :
    (signalStep inst s c).items = s.items := by
  unfold signalStep
  split
  · rfl
  · rw [chatGetOrCreate_items]

theorem signalStep_messages (inst : LikeR) (s : State) (c : LikeR) :
    (signalStep inst s c).messages = s.messages := by
  unfold signalStep
  split
  · rfl
  · rw [chatGetOrCreate_messages]

theorem runSignal_likes (s : State) (inst : LikeR) :
    (runSignal s inst).likes = s.likes :=
  foldl_field_eq _ (fun t => t.likes) (signalStep_likes inst) _ s

theorem runSignal_items (s : State) (inst : LikeR) :
    (runSignal s inst).items = s.items :=
  foldl_field_eq _ (fun t => t.items) (signalStep_items inst) _ s

theorem runSignal_messages (s : State) (inst : LikeR) :
    (runSignal s inst).messages = s.messages :=
  foldl_field_eq _ (fun t => t.messages) (signalStep_messages inst) _ s

theorem findItem_eq_of_items_eq {s1 s2 : State} (h : s1.items = s2.items) (i : Nat) :
    findItem s1 i = findItem s2 i := by
  unfold findItem
  rw [h]

/-- A small concrete database: items 1 (owner 20) and 2 (owner 10), the
reciprocal likes 3 and 4, their match 5 and the chat 6 between users 10
and 20; exactly the state produced by the two like_item calls. -/
def exState : State :=
  ⟨[⟨1, 20⟩, ⟨2, 10⟩], [⟨3, 1, 10⟩, ⟨4, 2, 20⟩], [⟨5, 4, 3⟩], [⟨6, 10, 20⟩], [], 7⟩

/-- itemInMatch agrees with its relational reading. -/
theorem itemInMatch_iff (s : State) (i : Nat) :
    itemInMatch s i = true ↔
      ∃ m ∈ s.matchRows, ∃ l ∈ s.likes,
        (l.id = m.like_one ∨ l.id = m.like_two) ∧ l.item = i := by
  unfold itemInMatch
  simp only [Bool.or_eq_true, List.any_eq_true, Bool.and_eq_true, beq_iff_eq]
  constructor
  · rintro (⟨m, hm, l, hl, h1, h2⟩ | ⟨m, hm, l, hl, h1, h2⟩)
    · exact ⟨m, hm, l, hl, Or.inl h1, h2⟩
    · exact ⟨m, hm, l, hl, Or.inr h1, h2⟩
  · rintro ⟨m, hm, l, hl, h1 | h1, h2⟩
    · exact Or.inl ⟨m, hm, l, hl, h1, h2⟩
    · exact Or.inr ⟨m, hm, l, hl, h1, h2⟩

/-- C10: an item that participates in a Match (through a like on it on
either side of the match) is refused deletion with a warning and no state
change, and a requester who is not the owner is refused with an error and
no state change. -/
theorem deleteItem_refusals (s : State) (itemId r : Nat) (it : ItemR)
    (hit : findItem s itemId = some it) :
    (it.owner ≠ r → deleteItem s itemId r = (s, DeleteItemOutcome.notOwner)) ∧
    (it.owner = r →
      (∃ m ∈ s.matchRows, ∃ l ∈ s.likes,
        (l.id = m.like_one ∨ l.id = m.like_two) ∧ l.item = itemId) →
      deleteItem s itemId r = (s, DeleteItemOutcome.inMatch)) := by
  constructor
  · intro hno
    unfold deleteItem
    rw [hit]
    simp [hno]
  · intro hown hex
    have hmatch : itemInMatch s itemId = true := (itemInMatch_iff s itemId).mpr hex
    unfold deleteItem
    rw [hit]
    simp [hown, hmatch]

/-- Witness for C10 at a concrete state: item 1 is owned by 20 and sits in
match 5; user 99 is not the owner, and the owner is blocked by the match. -/
theorem deleteItem_refusals_witness :
    ((⟨1, 20⟩ : ItemR).owner ≠ 99 →
      deleteItem exState 1 99 = (exState, DeleteItemOutcome.notOwner)) ∧
    ((⟨1, 20⟩ : ItemR).owner = 20 →
      (∃ m ∈ exState.matchRows, ∃ l ∈ exState.likes,
        (l.id = m.like_one ∨ l.id = m.like_two) ∧ l.item = 1) →
      deleteItem exState 1 20 = (exState, DeleteItemOutcome.inMatch)) :=
  ⟨(deleteItem_refusals exState 1 99 ⟨1, 20⟩ (by decide)).1,
   (deleteItem_refusals exState 1 20 ⟨1, 20⟩ (by decide)).2⟩

/-- C2 as stated is false: user 99 is not a participant of chat 6, yet
posting a non-empty text to the chat is not denied and creates a message. -/
theorem chat_access_counterexample :
    (∀ c ∈ exState.chats, c.participant_one ≠ 99 ∧ c.participant_two ≠ 99) ∧
    (send_message exState 6 99 "intruding").2 = SendOutcome.sent ∧
    (send_message exState 6 99 "intruding").1.messages.length
      = exState.messages.length + 1 := by
  refine ⟨by decide, rfl, rfl⟩

/-- C2 (amended): only the two participants may read the chat detail view,
any other user gets a permission-denied outcome, and a participant sees
exactly the messages of the chat; posting, however, is not restricted to
participants: any authenticated user posting a non-empty text to an
existing chat appends a message. -/
theorem chat_access_control (s : State) (cid u : Nat) (c : ChatR)
    (hc : findChat s cid = some c) :
    ((c.participant_one ≠ u ∧ c.participant_two ≠ u) → chatDetail s cid u = DetailOutcome.denied) ∧
    ((c.participant_one = u ∨ c.participant_two = u) →
      chatDetail s cid u = DetailOutcome.ok c (chatMessages s c.id)) ∧
    (∀ text : String, text ≠ "" →
      send_message s cid u text =
        ({ s with messages := s.messages ++ [⟨s.nextId, cid, u, text⟩],
                  nextId := s.nextId + 1 }, SendOutcome.sent)) := by
  refine ⟨?_, ?_, ?_⟩
  · intro h
    unfold chatDetail
    rw [hc]
    simp [h]
  · intro h
    have hno : ¬(c.participant_one ≠ u ∧ c.participant_two ≠ u) := by tauto
    unfold chatDetail
    rw [hc]
    simp only [if_neg hno]
  · intro t ht
    unfold send_message
    rw [hc]
    simp [ht]

/-- Witness for the amended C2 at the concrete state: chat 6 with
participants 10 and 20 and outsider 99. -/
theorem chat_access_control_witness :
    (((⟨6, 10, 20⟩ : ChatR).participant_one ≠ 99 ∧ (⟨6, 10, 20⟩ : ChatR).participant_two ≠ 99) →
      chatDetail exState 6 99 = DetailOutcome.denied) ∧
    (((⟨6, 10, 20⟩ : ChatR).participant_one = 99 ∨ (⟨6, 10, 20⟩ : ChatR).participant_two = 99) →
      chatDetail exState 6 99 = DetailOutcome.ok ⟨6, 10, 20⟩ (chatMessages exState 6)) ∧
    (∀ text : String, text ≠ "" →
      send_message exState 6 99 text =
        ({ exState with messages := exState.messages ++ [⟨exState.nextId, 6, 99, text⟩],
                        nextId := exState.nextId + 1 }, SendOutcome.sent)) :=
  chat_access_control exState 6 99 ⟨6, 10, 20⟩ (by decide)

/-- C5 as stated is false: a blank, whitespace-only text is not empty in
the truthiness test of send_message, so posting it creates a message even
though its trimmed form is empty. -/
theorem send_blank_counterexample :
    (" " : String) ≠ "" ∧ (∀ ch ∈ (" " : String).toList, ch.isWhitespace = true) ∧
    (send_message exState 6 10 " ").2 = SendOutcome.sent ∧
    (send_message exState 6 10 " ").1.messages.length = exState.messages.length + 1 := by
  refine ⟨by decide, by decide, rfl, rfl⟩

/-- C5 (amended): posting the empty text to an existing chat is a silent
no-op, while posting any non-empty text (whitespace-only included) appends
exactly one message, which appears as the last entry of the chat detail
view in send order. -/
theorem send_message_contract (s : State) (cid u : Nat) (c : ChatR)
    (hc : findChat s cid = some c) :
    send_message s cid u "" = (s, SendOutcome.ignored) ∧
    (∀ text : String, text ≠ "" →
      (send_message s cid u text).1.messages = s.messages ++ [⟨s.nextId, cid, u, text⟩] ∧
      chatMessages (send_message s cid u text).1 cid
        = chatMessages s cid ++ [⟨s.nextId, cid, u, text⟩]) := by
  constructor
  · unfold send_message
    rw [hc]
    simp
  · intro t ht
    unfold send_message
    rw [hc]
    simp only [if_pos ht]
    refine ⟨trivial, ?_⟩
    simp [chatMessages, List.filter_append]

/-- C6: the like action is idempotent: when no like for (item, user)
exists yet, the first call creates exactly one Like row and signals
success; the second call signals already-liked, leaves the state exactly
as it was (hence no duplicate Like, no new Match and no new Chat). -/
theorem like_item_idempotent (s : State) (i u : Nat) (it : ItemR)
    (hit : findItem s i = some it)
    (hnew : s.likes.find? (fun l => l.item == i && l.liker == u) = none) :
    (like_item s i u).2 = LikeOutcome.liked ∧
    countLikesFor (like_item s i u).1 i u = 1 ∧
    like_item (like_item s i u).1 i u = ((like_item s i u).1, LikeOutcome.alreadyLiked) ∧
    (like_item (like_item s i u).1 i u).1.matchRows = (like_item s i u).1.matchRows ∧
    (like_item (like_item s i u).1 i u).1.chats = (like_item s i u).1.chats := by
  have hstep : like_item s i u =
      (runSignal { s with likes := s.likes ++ [⟨s.nextId, i, u⟩], nextId := s.nextId + 1 }
        ⟨s.nextId, i, u⟩, LikeOutcome.liked) := by
    unfold like_item
    rw [hit, hnew]
    rfl
  set s1 := runSignal { s with likes := s.likes ++ [⟨s.nextId, i, u⟩], nextId := s.nextId + 1 }
    ⟨s.nextId, i, u⟩ with hs1
  have hlikes : s1.likes = s.likes ++ [⟨s.nextId, i, u⟩] := by
    rw [hs1, runSignal_likes]
  have hitems : s1.items = s.items := by
    rw [hs1, runSignal_items]
  have hsecond : like_item s1 i u = (s1, LikeOutcome.alreadyLiked) := by
    unfold like_item
    rw [findItem_eq_of_items_eq hitems, hit]
    have hfind : s1.likes.find? (fun l => l.item == i && l.liker == u)
        = some ⟨s.nextId, i, u⟩ := by
      rw [hlikes, List.find?_append, hnew]
      simp
    rw [hfind]
  refine ⟨by rw [hstep], ?_, ?_, ?_, ?_⟩
  · rw [hstep]
    unfold countLikesFor
    simp only [hlikes, List.countP_append, List.countP_eq_zero.mpr (by
      intro l hl
      exact List.find?_eq_none.mp hnew l hl)]
    simp [List.countP_cons]
  · rw [hstep]
    exact hsecond
  · rw [hstep]
    simp only [hsecond]
  · rw [hstep]
    simp only [hsecond]

/-- Witness for C6: user 30 likes item 1 of exState twice. -/
theorem like_item_idempotent_witness :
    (like_item exState 1 30).2 = LikeOutcome.liked ∧
    countLikesFor (like_item exState 1 30).1 1 30 = 1 ∧
    like_item (like_item exState 1 30).1 1 30
      = ((like_item exState 1 30).1, LikeOutcome.alreadyLiked) ∧
    (like_item (like_item exState 1 30).1 1 30).1.matchRows
      = (like_item exState 1 30).1.matchRows ∧
    (like_item (like_item exState 1 30).1 1 30).1.chats
      = (like_item exState 1 30).1.chats :=
  like_item_idempotent exState 1 30 ⟨1, 20⟩ (by decide) (by decide)

theorem itemOwner_eq_of_items_eq {s1 s2 : State} (h : s1.items = s2.items) (i : Nat) :
    itemOwner s1 i = itemOwner s2 i := by
  unfold itemOwner
  rw [findItem_eq_of_items_eq h]

theorem foldl_signalStep_likes (inst : LikeR) (l : List LikeR) (s : State) :
    (l.foldl (signalStep inst) s).likes = s.likes :=
  foldl_field_eq _ (fun t => t.likes) (signalStep_likes inst) l s

/-- C8: liking an item one owns creates a Like that the match engine then
pairs with itself: a Match with both sides equal to the new Like, and a
Chat with both participants equal to the owner, are produced. -/
theorem self_like_self_match (s : State) (i u : Nat)
    (hit : findItem s i = some ⟨i, u⟩)
    (hnew : s.likes.find? (fun l => l.item == i && l.liker == u) = none)
    (hwf : WfIds s) :
    (like_item s i u).2 = LikeOutcome.liked ∧
    (∃ l ∈ (like_item s i u).1.likes, l.id = s.nextId ∧ l.item = i ∧ l.liker = u) ∧
    (∃ m ∈ (like_item s i u).1.matchRows,
      m.like_one = s.nextId ∧ m.like_two = s.nextId) ∧
    (∃ c ∈ (like_item s i u).1.chats,
      c.participant_one = u ∧ c.participant_two = u) := by
  have hstep : like_item s i u =
      (runSignal { s with likes := s.likes ++ [⟨s.nextId, i, u⟩], nextId := s.nextId + 1 }
        ⟨s.nextId, i, u⟩, LikeOutcome.liked) := by
    unfold like_item
    rw [hit, hnew]
    rfl
  set n := s.nextId with hn
  set L : LikeR := ⟨n, i, u⟩ with hL
  set s1 : State := { s with likes := s.likes ++ [L], nextId := n + 1 } with hs1
  have hitems1 : s1.items = s.items := rfl
  have howner1 : itemOwner s1 i = some u := by
    rw [itemOwner_eq_of_items_eq hitems1]
    unfold itemOwner
    rw [hit]
    rfl
  have hpot : potentialLikes s1 L =
      s1.likes.filter (fun c => itemOwner s1 c.item == some L.liker
        && some c.liker == itemOwner s1 L.item) := rfl
  have hsplit : potentialLikes s1 L =
      (s.likes.filter (fun c => itemOwner s1 c.item == some L.liker
        && some c.liker == itemOwner s1 L.item)) ++ [L] := by
    rw [hpot]
    show List.filter _ (s.likes ++ [L]) = _
    rw [List.filter_append]
    congr 1
    have : L.item = i := rfl
    simp [this, howner1]
  have hrun : runSignal s1 L =
      signalStep L
        ((s.likes.filter (fun c => itemOwner s1 c.item == some L.liker
          && some c.liker == itemOwner s1 L.item)).foldl (signalStep L) s1) L := by
    unfold runSignal
    rw [hsplit, List.foldl_append]
    rfl
  set cs := s.likes.filter (fun c => itemOwner s1 c.item == some L.liker
    && some c.liker == itemOwner s1 L.item) with hcs
  set st := cs.foldl (signalStep L) s1 with hst
  have hPst : ∀ m ∈ st.matchRows, ¬(m.like_one = n ∧ m.like_two = n) := by
    rw [hst]
    apply foldl_pred_of_mem (signalStep L)
      (fun t => ∀ m ∈ t.matchRows, ¬(m.like_one = n ∧ m.like_two = n))
    · intro t c hc hP
      unfold signalStep
      split
      · exact hP
      · intro m hm
        rw [chatGetOrCreate_matchRows] at hm
        rcases List.mem_append.mp hm with hold | hnewm
        · exact hP m hold
        · have hcid : c.id < n := by
            have hcmem : c ∈ s.likes := (List.mem_filter.mp (hcs ▸ hc)).1
            exact hwf.2.1 c hcmem
          intro hcontra
          have : m.like_two = c.id := by
            simp only [List.mem_singleton] at hnewm
            rw [hnewm]
          omega
    · intro m hm
      have hm' : m ∈ s.matchRows := hm
      have := (hwf.2.2.1 m hm').2.1
      omega
  have hnoMatch : matchExistsBetween st L.id L.id = false := by
    unfold matchExistsBetween
    rw [Bool.eq_false_iff]
    intro hany
    rcases List.any_eq_true.mp hany with ⟨m, hm, hpred⟩
    simp only [Bool.or_eq_true, Bool.and_eq_true, beq_iff_eq] at hpred
    have : m.like_one = n ∧ m.like_two = n := by
      rcases hpred with h | h
      · exact h
      · exact h
    exact hPst m hm this
  set st2 : State := ({ st with matchRows := st.matchRows ++ [⟨st.nextId, L.id, L.id⟩], nextId := st.nextId + 1 }) with hst2
  have hmin : Nat.min L.liker L.liker = u := by simp [hL]
  have hmax : Nat.max L.liker L.liker = u := by simp [hL]
  have hfinal : runSignal s1 L = (chatGetOrCreate st2 u u).1 := by
    rw [hrun]
    unfold signalStep
    rw [if_neg (by rw [hnoMatch]; exact Bool.false_ne_true)]
    show (chatGetOrCreate st2 (Nat.min L.liker L.liker) (Nat.max L.liker L.liker)).1 = _
    rw [hmin, hmax]
  have hlikesFinal : (runSignal s1 L).likes = s.likes ++ [L] := by
    rw [hfinal, chatGetOrCreate_likes]
    show st.likes = _
    rw [hst, foldl_signalStep_likes]
  refine ⟨by rw [hstep], ?_, ?_, ?_⟩
  · refine ⟨L, ?_, rfl, rfl, rfl⟩
    rw [hstep]
    show L ∈ (runSignal s1 L).likes
    rw [hlikesFinal]
    exact List.mem_append_right _ (List.mem_singleton.mpr rfl)
  · refine ⟨⟨st.nextId, L.id, L.id⟩, ?_, rfl, rfl⟩
    rw [hstep]
    show _ ∈ (runSignal s1 L).matchRows
    rw [hfinal, chatGetOrCreate_matchRows]
    exact List.mem_append_right _ (List.mem_singleton.mpr rfl)
  · rcases chatGetOrCreate_provides st2 u u with ⟨c, hcmem, _, hp1, hp2⟩
    refine ⟨c, ?_, hp1, hp2⟩
    rw [hstep]
    show c ∈ (runSignal s1 L).chats
    rw [hfinal]
    exact hcmem

/-- Witness for C8: user 7 likes their own item 1 in a fresh state. -/
theorem self_like_self_match_witness :
    (like_item ⟨[⟨1, 7⟩], [], [], [], [], 2⟩ 1 7).2 = LikeOutcome.liked ∧
    (∃ l ∈ (like_item ⟨[⟨1, 7⟩], [], [], [], [], 2⟩ 1 7).1.likes,
      l.id = 2 ∧ l.item = 1 ∧ l.liker = 7) ∧
    (∃ m ∈ (like_item ⟨[⟨1, 7⟩], [], [], [], [], 2⟩ 1 7).1.matchRows,
      m.like_one = 2 ∧ m.like_two = 2) ∧
    (∃ c ∈ (like_item ⟨[⟨1, 7⟩], [], [], [], [], 2⟩ 1 7).1.chats,
      c.participant_one = 7 ∧ c.participant_two = 7) :=
  self_like_self_match ⟨[⟨1, 7⟩], [], [], [], [], 2⟩ 1 7 (by decide) (by decide)
    (by refine ⟨?_, ?_, ?_, ?_, ?_⟩ <;> decide)

/-- Witness for the amended C5 at the concrete state. -/
theorem send_message_contract_witness :
    send_message exState 6 10 "" = (exState, SendOutcome.ignored) ∧
    (∀ text : String, text ≠ "" →
      (send_message exState 6 10 text).1.messages
        = exState.messages ++ [⟨exState.nextId, 6, 10, text⟩] ∧
      chatMessages (send_message exState 6 10 text).1 6
        = chatMessages exState 6 ++ [⟨exState.nextId, 6, 10, text⟩]) :=
  send_message_contract exState 6 10 ⟨6, 10, 20⟩ (by decide)

/-! ## Lemmas about chat deletion -/

theorem deleteChatStep_messages (s : State) (m : MatchR) :
    (deleteChatStep s m).messages = s.messages := rfl

theorem deleteChatStep_chats (s : State) (m : MatchR) :
    (deleteChatStep s m).chats = s.chats := rfl

theorem deleteChatStep_items (s : State) (m : MatchR) :
    (deleteChatStep s m).items = s.items := rfl

theorem deleteChatStep_mem_likes {s : State} {m : MatchR} {l : LikeR} :
    l ∈ (deleteChatStep s m).likes ↔
      l ∈ s.likes ∧ l.id ≠ m.like_one ∧ l.id ≠ m.like_two := by
  show l ∈ List.filter _ s.likes ↔ _
  rw [List.mem_filter]
  simp [not_or]

theorem deleteChatStep_mem_matchRows {s : State} {m mm : MatchR} :
    mm ∈ (deleteChatStep s m).matchRows ↔
      mm ∈ s.matchRows ∧ (mm.like_one ≠ m.like_one ∧ mm.like_one ≠ m.like_two)
        ∧ (mm.like_two ≠ m.like_one ∧ mm.like_two ≠ m.like_two) ∧ mm.id ≠ m.id := by
  show mm ∈ List.filter _ (List.filter _ s.matchRows) ↔ _
  rw [List.mem_filter, List.mem_filter]
  simp [not_or]
  tauto

theorem dcFold_messages (ms : List MatchR) (s : State) :
    (ms.foldl deleteChatStep s).messages = s.messages :=
  foldl_field_eq deleteChatStep (fun t => t.messages) deleteChatStep_messages ms s

theorem dcFold_chats (ms : List MatchR) (s : State) :
    (ms.foldl deleteChatStep s).chats = s.chats :=
  foldl_field_eq deleteChatStep (fun t => t.chats) deleteChatStep_chats ms s

theorem dcFold_mem_likes :
    ∀ (ms : List MatchR) (s : State) (l : LikeR),
      l ∈ (ms.foldl deleteChatStep s).likes ↔
        l ∈ s.likes ∧ ∀ m ∈ ms, l.id ≠ m.like_one ∧ l.id ≠ m.like_two := by
  intro ms
  induction ms with
  | nil => intro s l; simp
  | cons m t ih =>
      intro s l
      rw [List.foldl_cons, ih, deleteChatStep_mem_likes]
      constructor
      · rintro ⟨⟨hmem, h1, h2⟩, hrest⟩
        refine ⟨hmem, ?_⟩
        intro mm hmm
        rcases List.mem_cons.mp hmm with h | h
        · rw [h]; exact ⟨h1, h2⟩
        · exact hrest mm h
      · rintro ⟨hmem, hall⟩
        have hm := hall m (List.mem_cons_self m t)
        exact ⟨⟨hmem, hm.1, hm.2⟩, fun mm hmm => hall mm (List.mem_cons_of_mem m hmm)⟩

theorem dcFold_mem_matchRows :
    ∀ (ms : List MatchR) (s : State) (mm : MatchR),
      mm ∈ (ms.foldl deleteChatStep s).matchRows ↔
        mm ∈ s.matchRows ∧ ∀ m ∈ ms,
          (mm.like_one ≠ m.like_one ∧ mm.like_one ≠ m.like_two)
          ∧ (mm.like_two ≠ m.like_one ∧ mm.like_two ≠ m.like_two) ∧ mm.id ≠ m.id := by
  intro ms
  induction ms with
  | nil => intro s mm; simp
  | cons m t ih =>
      intro s mm
      rw [List.foldl_cons, ih, deleteChatStep_mem_matchRows]
      constructor
      · rintro ⟨⟨hmem, h1, h2, h3⟩, hrest⟩
        refine ⟨hmem, ?_⟩
        intro m' hm'
        rcases List.mem_cons.mp hm' with h | h
        · rw [h]; exact ⟨h1, h2, h3⟩
        · exact hrest m' h
      · rintro ⟨hmem, hall⟩
        have hm := hall m (List.mem_cons_self m t)
        exact ⟨⟨hmem, hm.1, hm.2.1, hm.2.2⟩, fun m' hm' => hall m' (List.mem_cons_of_mem m hm')⟩

theorem matchesToDelete_sub {s : State} {c : ChatR} {m : MatchR}
    (h : m ∈ matchesToDelete s c) : m ∈ s.matchRows :=
  (List.mem_filter.mp h).1

/-- Membership in matchesToDelete, in relational form. -/
theorem mem_matchesToDelete {s : State} {c : ChatR} {m : MatchR} :
    m ∈ matchesToDelete s c ↔ m ∈ s.matchRows ∧
      ((∃ l1 ∈ s.likes, l1.liker = c.participant_one ∧ l1.id = m.like_one) ∧
        (∃ l2 ∈ s.likes, l2.liker = c.participant_two ∧ l2.id = m.like_two)
      ∨ (∃ l1 ∈ s.likes, l1.liker = c.participant_two ∧ l1.id = m.like_one) ∧
        (∃ l2 ∈ s.likes, l2.liker = c.participant_one ∧ l2.id = m.like_two)) := by
  unfold matchesToDelete
  rw [List.mem_filter]
  simp only [Bool.or_eq_true, Bool.and_eq_true, List.any_eq_true, List.mem_filter, beq_iff_eq]
  constructor
  · rintro ⟨hmem, (⟨⟨l1, ⟨hl1, he1⟩, hi1⟩, ⟨l2, ⟨hl2, he2⟩, hi2⟩⟩ | ⟨⟨l1, ⟨hl1, he1⟩, hi1⟩, ⟨l2, ⟨hl2, he2⟩, hi2⟩⟩)⟩
    · exact ⟨hmem, Or.inl ⟨⟨l1, hl1, he1, hi1⟩, ⟨l2, hl2, he2, hi2⟩⟩⟩
    · exact ⟨hmem, Or.inr ⟨⟨l1, hl1, he1, hi1⟩, ⟨l2, hl2, he2, hi2⟩⟩⟩
  · rintro ⟨hmem, (⟨⟨l1, hl1, he1, hi1⟩, ⟨l2, hl2, he2, hi2⟩⟩ | ⟨⟨l1, hl1, he1, hi1⟩, ⟨l2, hl2, he2, hi2⟩⟩)⟩
    · exact ⟨hmem, Or.inl ⟨⟨l1, ⟨hl1, he1⟩, hi1⟩, ⟨l2, ⟨hl2, he2⟩, hi2⟩⟩⟩
    · exact ⟨hmem, Or.inr ⟨⟨l1, ⟨hl1, he1⟩, hi1⟩, ⟨l2, ⟨hl2, he2⟩, hi2⟩⟩⟩

/-- Reduction of delete_chat_and_related_data in the participant case. -/
theorem delete_chat_participant_eq (s : State) (cid r : Nat) (c : ChatR)
    (hc : findChat s cid = some c)
    (hpart : r = c.participant_one ∨ r = c.participant_two) :
    delete_chat_and_related_data s cid r =
      ({ (matchesToDelete s c).foldl deleteChatStep
            { s with messages := s.messages.filter (fun m => !(m.chat == c.id)) } with
          chats := ((matchesToDelete s c).foldl deleteChatStep
            { s with messages := s.messages.filter (fun m => !(m.chat == c.id)) }).chats.filter
              (fun ch => !(ch.id == c.id)) },
        DeleteChatOutcome.deleted) := by
  unfold delete_chat_and_related_data
  rw [hc]
  dsimp only
  rw [if_neg (show ¬(r ≠ c.participant_one ∧ r ≠ c.participant_two) by tauto)]
  rfl

/-- C3: deleting a chat is denied (with no state change) for a
non-participant; for a participant it deletes, in one state transition,
all messages of the chat, every match between the two participants (in
either like order) together with the constituent likes of those matches,
and the chat itself, leaving no match without its likes and no message
without its chat. -/
theorem delete_chat_contract (s : State) (cid r : Nat) (c : ChatR)
    (hc : findChat s cid = some c)
    (hmi : ∀ m ∈ s.matchRows,
      (∃ l ∈ s.likes, l.id = m.like_one) ∧ (∃ l ∈ s.likes, l.id = m.like_two))
    (hme : ∀ msg ∈ s.messages, ∃ ch ∈ s.chats, ch.id = msg.chat) :
    ((r ≠ c.participant_one ∧ r ≠ c.participant_two) →
      delete_chat_and_related_data s cid r = (s, DeleteChatOutcome.denied)) ∧
    ((r = c.participant_one ∨ r = c.participant_two) →
      (delete_chat_and_related_data s cid r).2 = DeleteChatOutcome.deleted ∧
      (∀ msg ∈ (delete_chat_and_related_data s cid r).1.messages, msg.chat ≠ c.id) ∧
      (∀ ch ∈ (delete_chat_and_related_data s cid r).1.chats, ch.id ≠ c.id) ∧
      (∀ m ∈ matchesToDelete s c,
        (∀ m' ∈ (delete_chat_and_related_data s cid r).1.matchRows, m'.id ≠ m.id) ∧
        (∀ l ∈ (delete_chat_and_related_data s cid r).1.likes,
          l.id ≠ m.like_one ∧ l.id ≠ m.like_two)) ∧
      (∀ m ∈ (delete_chat_and_related_data s cid r).1.matchRows,
        (∃ l ∈ (delete_chat_and_related_data s cid r).1.likes, l.id = m.like_one) ∧
        (∃ l ∈ (delete_chat_and_related_data s cid r).1.likes, l.id = m.like_two)) ∧
      (∀ msg ∈ (delete_chat_and_related_data s cid r).1.messages,
        ∃ ch ∈ (delete_chat_and_related_data s cid r).1.chats, ch.id = msg.chat)) := by
  constructor
  · intro h
    unfold delete_chat_and_related_data
    rw [hc]
    dsimp only
    rw [if_pos h]
  · intro h
    rw [delete_chat_participant_eq s cid r c hc h]
    set s1 : State := { s with messages := s.messages.filter (fun m => !(m.chat == c.id)) }
      with hs1
    set F : State := (matchesToDelete s c).foldl deleteChatStep s1 with hF
    have hFmsg : F.messages = s.messages.filter (fun m => !(m.chat == c.id)) := by
      rw [hF, dcFold_messages]
    have hFchats : F.chats = s.chats := by
      rw [hF, dcFold_chats]
    have hFlikes : ∀ l : LikeR, l ∈ F.likes ↔
        l ∈ s.likes ∧ ∀ m ∈ matchesToDelete s c, l.id ≠ m.like_one ∧ l.id ≠ m.like_two := by
      intro l
      rw [hF, dcFold_mem_likes]
    have hFmatch : ∀ mm : MatchR, mm ∈ F.matchRows ↔
        mm ∈ s.matchRows ∧ ∀ m ∈ matchesToDelete s c,
          (mm.like_one ≠ m.like_one ∧ mm.like_one ≠ m.like_two)
          ∧ (mm.like_two ≠ m.like_one ∧ mm.like_two ≠ m.like_two) ∧ mm.id ≠ m.id := by
      intro mm
      rw [hF, dcFold_mem_matchRows]
    refine ⟨rfl, ?_, ?_, ?_, ?_, ?_⟩
    · intro msg hmsg
      have : msg ∈ F.messages := hmsg
      rw [hFmsg] at this
      have := List.mem_filter.mp this
      simpa using this.2
    · intro ch hch
      have : ch ∈ F.chats.filter (fun ch => !(ch.id == c.id)) := hch
      have := List.mem_filter.mp this
      simpa using this.2
    · intro m hm
      constructor
      · intro m' hm'
        have : m' ∈ F.matchRows := hm'
        exact ((hFmatch m').mp this).2 m hm |>.2.2
      · intro l hl
        have : l ∈ F.likes := hl
        exact ((hFlikes l).mp this).2 m hm
    · intro m hm
      have hmF := (hFmatch m).mp hm
      rcases hmi m hmF.1 with ⟨⟨l1, hl1, he1⟩, ⟨l2, hl2, he2⟩⟩
      constructor
      · refine ⟨l1, ?_, he1⟩
        show l1 ∈ F.likes
        rw [hFlikes]
        refine ⟨hl1, ?_⟩
        intro mm hmm
        have := hmF.2 mm hmm
        rw [he1]
        exact this.1
      · refine ⟨l2, ?_, he2⟩
        show l2 ∈ F.likes
        rw [hFlikes]
        refine ⟨hl2, ?_⟩
        intro mm hmm
        have := hmF.2 mm hmm
        rw [he2]
        exact this.2.1
    · intro msg hmsg
      have hmF : msg ∈ F.messages := hmsg
      rw [hFmsg] at hmF
      have hmem := List.mem_filter.mp hmF
      rcases hme msg hmem.1 with ⟨ch, hch, hid⟩
      refine ⟨ch, ?_, hid⟩
      show ch ∈ F.chats.filter (fun ch => !(ch.id == c.id))
      rw [List.mem_filter, hFchats]
      refine ⟨hch, ?_⟩
      simp only [Bool.not_eq_true', beq_eq_false_iff_ne, ne_eq]
      rw [hid]
      have : ¬(msg.chat == c.id) = true := by simpa using hmem.2
      simpa using hmem.2

/-- Witness for C3 at the concrete state: participant 10 deletes chat 6
and the denial branch for outsider 99. -/
theorem delete_chat_contract_witness :
    ((10 ≠ (⟨6, 10, 20⟩ : ChatR).participant_one ∧ 10 ≠ (⟨6, 10, 20⟩ : ChatR).participant_two) →
      delete_chat_and_related_data exState 6 10 = (exState, DeleteChatOutcome.denied)) ∧
    ((10 = (⟨6, 10, 20⟩ : ChatR).participant_one ∨ 10 = (⟨6, 10, 20⟩ : ChatR).participant_two) →
      (delete_chat_and_related_data exState 6 10).2 = DeleteChatOutcome.deleted ∧
      (∀ msg ∈ (delete_chat_and_related_data exState 6 10).1.messages, msg.chat ≠ 6) ∧
      (∀ ch ∈ (delete_chat_and_related_data exState 6 10).1.chats, ch.id ≠ 6) ∧
      (∀ m ∈ matchesToDelete exState ⟨6, 10, 20⟩,
        (∀ m' ∈ (delete_chat_and_related_data exState 6 10).1.matchRows, m'.id ≠ m.id) ∧
        (∀ l ∈ (delete_chat_and_related_data exState 6 10).1.likes,
          l.id ≠ m.like_one ∧ l.id ≠ m.like_two)) ∧
      (∀ m ∈ (delete_chat_and_related_data exState 6 10).1.matchRows,
        (∃ l ∈ (delete_chat_and_related_data exState 6 10).1.likes, l.id = m.like_one) ∧
        (∃ l ∈ (delete_chat_and_related_data exState 6 10).1.likes, l.id = m.like_two)) ∧
      (∀ msg ∈ (delete_chat_and_related_data exState 6 10).1.messages,
        ∃ ch ∈ (delete_chat_and_related_data exState 6 10).1.chats, ch.id = msg.chat)) :=
  delete_chat_contract exState 6 10 ⟨6, 10, 20⟩ (by decide) (by decide) (by decide)

/-- Any like standing on either side of a match selected for deletion is a
like by one of the two chat participants. -/
theorem mtd_side_likers {s : State} {c : ChatR} {mm : MatchR}
    (hnd : (s.likes.map (fun l => l.id)).Nodup)
    (hmm : mm ∈ matchesToDelete s c) :
    ∀ l ∈ s.likes, (l.id = mm.like_one ∨ l.id = mm.like_two) →
      (l.liker = c.participant_one ∨ l.liker = c.participant_two) := by
  rcases mem_matchesToDelete.mp hmm with ⟨_, h | h⟩ <;>
  · obtain ⟨⟨l1, hl1, he1, hi1⟩, ⟨l2, hl2, he2, hi2⟩⟩ := h
    intro l hl hid
    rcases hid with h1 | h2
    · have heq : l = l1 := List.inj_on_of_nodup_map hnd hl hl1 (h1.trans hi1.symm)
      rw [heq, he1]
      tauto
    · have heq : l = l2 := List.inj_on_of_nodup_map hnd hl hl2 (h2.trans hi2.symm)
      rw [heq, he2]
      tauto

/-- If a match shares a constituent like with a match selected for
deletion, then (by reciprocity of matches) both of its constituent likes
are likes by the chat participants. -/
theorem shared_like_pair {s : State} {c : ChatR}
    (hnd : (s.likes.map (fun l => l.id)).Nodup)
    (hrecip : ∀ m ∈ s.matchRows, ∃ a ∈ s.likes, ∃ b ∈ s.likes,
      a.id = m.like_one ∧ b.id = m.like_two ∧
      itemOwner s a.item = some b.liker ∧ itemOwner s b.item = some a.liker)
    {m mm : MatchR} (hm : m ∈ s.matchRows) (hmm : mm ∈ matchesToDelete s c)
    (hshare : m.like_one = mm.like_one ∨ m.like_one = mm.like_two
      ∨ m.like_two = mm.like_one ∨ m.like_two = mm.like_two) :
    ∀ a ∈ s.likes, (a.id = m.like_one ∨ a.id = m.like_two) →
      (a.liker = c.participant_one ∨ a.liker = c.participant_two) := by
  obtain ⟨A, hA, B, hB, hAid, hBid, hAB, hBA⟩ := hrecip m hm
  obtain ⟨C, hC, D, hD, hCid, hDid, hCD, hDC⟩ := hrecip mm (matchesToDelete_sub hmm)
  have hCP := mtd_side_likers hnd hmm C hC (Or.inl hCid)
  have hDP := mtd_side_likers hnd hmm D hD (Or.inr hDid)
  intro a ha hside
  rcases hside with h1 | h2
  · have haA : a = A := List.inj_on_of_nodup_map hnd ha hA (h1.trans hAid.symm)
    subst haA
    rcases hshare with hs1 | hs2 | hs3 | hs4
    · have : a = C := List.inj_on_of_nodup_map hnd ha hC ((h1.trans hs1).trans hCid.symm)
      rw [this]; exact hCP
    · have : a = D := List.inj_on_of_nodup_map hnd ha hD ((h1.trans hs2).trans hDid.symm)
      rw [this]; exact hDP
    · have hBC : B = C := List.inj_on_of_nodup_map hnd hB hC ((hBid.trans hs3).trans hCid.symm)
      have : some a.liker = some D.liker := by
        rw [← hBA, hBC, hCD]
      rw [Option.some_inj.mp this]
      exact hDP
    · have hBD : B = D := List.inj_on_of_nodup_map hnd hB hD ((hBid.trans hs4).trans hDid.symm)
      have : some a.liker = some C.liker := by
        rw [← hBA, hBD, hDC]
      rw [Option.some_inj.mp this]
      exact hCP
  · have haB : a = B := List.inj_on_of_nodup_map hnd ha hB (h2.trans hBid.symm)
    subst haB
    rcases hshare with hs1 | hs2 | hs3 | hs4
    · have hAC : A = C := List.inj_on_of_nodup_map hnd hA hC ((hAid.trans hs1).trans hCid.symm)
      have : some a.liker = some D.liker := by
        rw [← hAB, hAC, hCD]
      rw [Option.some_inj.mp this]
      exact hDP
    · have hAD : A = D := List.inj_on_of_nodup_map hnd hA hD ((hAid.trans hs2).trans hDid.symm)
      have : some a.liker = some C.liker := by
        rw [← hAB, hAD, hDC]
      rw [Option.some_inj.mp this]
      exact hCP
    · have : a = C := List.inj_on_of_nodup_map hnd ha hC ((h2.trans hs3).trans hCid.symm)
      rw [this]; exact hCP
    · have : a = D := List.inj_on_of_nodup_map hnd ha hD ((h2.trans hs4).trans hDid.symm)
      rw [this]; exact hDP

/-- C9: chat deletion removes only the likes that are constituents of a
match between the two participants: a like in no match survives, likes by
third parties survive, matches with a constituent like by a third party
survive, other chats survive, and messages of other chats survive. -/
theorem delete_chat_frame (s : State) (cid r : Nat) (c : ChatR)
    (hc : findChat s cid = some c)
    (hpart : r = c.participant_one ∨ r = c.participant_two)
    (hnd : (s.likes.map (fun l => l.id)).Nodup)
    (hndm : (s.matchRows.map (fun m => m.id)).Nodup)
    (hrecip : ∀ m ∈ s.matchRows, ∃ a ∈ s.likes, ∃ b ∈ s.likes,
      a.id = m.like_one ∧ b.id = m.like_two ∧
      itemOwner s a.item = some b.liker ∧ itemOwner s b.item = some a.liker) :
    (∀ l ∈ s.likes, (∀ m ∈ s.matchRows, l.id ≠ m.like_one ∧ l.id ≠ m.like_two) →
      l ∈ (delete_chat_and_related_data s cid r).1.likes) ∧
    (∀ l ∈ s.likes, l.liker ≠ c.participant_one → l.liker ≠ c.participant_two →
      l ∈ (delete_chat_and_related_data s cid r).1.likes) ∧
    (∀ l ∈ s.likes, l ∉ (delete_chat_and_related_data s cid r).1.likes →
      ∃ m ∈ matchesToDelete s c, l.id = m.like_one ∨ l.id = m.like_two) ∧
    (∀ m ∈ s.matchRows,
      (∃ a ∈ s.likes, (a.id = m.like_one ∨ a.id = m.like_two) ∧
        a.liker ≠ c.participant_one ∧ a.liker ≠ c.participant_two) →
      m ∈ (delete_chat_and_related_data s cid r).1.matchRows) ∧
    (∀ ch ∈ s.chats, ch.id ≠ c.id → ch ∈ (delete_chat_and_related_data s cid r).1.chats) ∧
    (∀ msg ∈ s.messages, msg.chat ≠ c.id →
      msg ∈ (delete_chat_and_related_data s cid r).1.messages) := by
  rw [delete_chat_participant_eq s cid r c hc hpart]
  set s1 : State := { s with messages := s.messages.filter (fun m => !(m.chat == c.id)) }
    with hs1
  set F : State := (matchesToDelete s c).foldl deleteChatStep s1 with hF
  have hFlikes : ∀ l : LikeR, l ∈ F.likes ↔
      l ∈ s.likes ∧ ∀ m ∈ matchesToDelete s c, l.id ≠ m.like_one ∧ l.id ≠ m.like_two := by
    intro l
    rw [hF, dcFold_mem_likes]
  have hFmatch : ∀ mm : MatchR, mm ∈ F.matchRows ↔
      mm ∈ s.matchRows ∧ ∀ m ∈ matchesToDelete s c,
        (mm.like_one ≠ m.like_one ∧ mm.like_one ≠ m.like_two)
        ∧ (mm.like_two ≠ m.like_one ∧ mm.like_two ≠ m.like_two) ∧ mm.id ≠ m.id := by
    intro mm
    rw [hF, dcFold_mem_matchRows]
  refine ⟨?_, ?_, ?_, ?_, ?_, ?_⟩
  · intro l hl hno
    show l ∈ F.likes
    rw [hFlikes]
    exact ⟨hl, fun m hm => hno m (matchesToDelete_sub hm)⟩
  · intro l hl h1 h2
    show l ∈ F.likes
    rw [hFlikes]
    refine ⟨hl, ?_⟩
    intro m hm
    constructor
    · intro heq
      rcases mtd_side_likers hnd hm l hl (Or.inl heq) with h | h
      · exact h1 h
      · exact h2 h
    · intro heq
      rcases mtd_side_likers hnd hm l hl (Or.inr heq) with h | h
      · exact h1 h
      · exact h2 h
  · intro l hl hnot
    by_contra hcon
    push_neg at hcon
    apply hnot
    show l ∈ F.likes
    rw [hFlikes]
    refine ⟨hl, ?_⟩
    intro m hm
    exact hcon m hm
  · rintro m hm ⟨a, ha, haside, hap1, hap2⟩
    show m ∈ F.matchRows
    rw [hFmatch]
    refine ⟨hm, ?_⟩
    intro mm hmm
    have hforce : ¬(m.like_one = mm.like_one ∨ m.like_one = mm.like_two
        ∨ m.like_two = mm.like_one ∨ m.like_two = mm.like_two) := by
      intro hshare
      rcases shared_like_pair hnd hrecip hm hmm hshare a ha haside with h | h
      · exact hap1 h
      · exact hap2 h
    push_neg at hforce
    refine ⟨⟨hforce.1, hforce.2.1⟩, ⟨hforce.2.2.1, hforce.2.2.2⟩, ?_⟩
    intro hid
    have : m = mm := List.inj_on_of_nodup_map hndm hm (matchesToDelete_sub hmm) hid
    subst this
    rcases mtd_side_likers hnd hmm a ha haside with h | h
    · exact hap1 h
    · exact hap2 h
  · intro ch hch hne
    show ch ∈ F.chats.filter (fun ch => !(ch.id == c.id))
    rw [List.mem_filter, hF, dcFold_chats]
    refine ⟨hch, ?_⟩
    simpa using hne
  · intro msg hmsg hne
    show msg ∈ F.messages
    rw [hF, dcFold_messages]
    show msg ∈ s.messages.filter _
    rw [List.mem_filter]
    refine ⟨hmsg, ?_⟩
    simpa using hne

/-- exState extended with third-party rows: a spectator like 7 by user 30
on item 1 that belongs to no match, a chat 8 between users 30 and 40, and
a message 9 in that chat. -/
def exState9 : State :=
  ⟨[⟨1, 20⟩, ⟨2, 10⟩], [⟨3, 1, 10⟩, ⟨4, 2, 20⟩, ⟨7, 1, 30⟩], [⟨5, 4, 3⟩],
    [⟨6, 10, 20⟩, ⟨8, 30, 40⟩], [⟨9, 8, 30, "hi"⟩], 10⟩

/-- Witness for C9 at a concrete state with a spectator like: user 30
likes item 1 (no match involves that like), and participant 10 deletes
chat 6. -/
theorem delete_chat_frame_witness :
    (∀ l ∈ exState9.likes, (∀ m ∈ exState9.matchRows, l.id ≠ m.like_one ∧ l.id ≠ m.like_two) →
      l ∈ (delete_chat_and_related_data exState9 6 10).1.likes) ∧
    (∀ l ∈ exState9.likes, l.liker ≠ 10 → l.liker ≠ 20 →
      l ∈ (delete_chat_and_related_data exState9 6 10).1.likes) ∧
    (∀ l ∈ exState9.likes, l ∉ (delete_chat_and_related_data exState9 6 10).1.likes →
      ∃ m ∈ matchesToDelete exState9 ⟨6, 10, 20⟩, l.id = m.like_one ∨ l.id = m.like_two) ∧
    (∀ m ∈ exState9.matchRows,
      (∃ a ∈ exState9.likes, (a.id = m.like_one ∨ a.id = m.like_two) ∧
        a.liker ≠ 10 ∧ a.liker ≠ 20) →
      m ∈ (delete_chat_and_related_data exState9 6 10).1.matchRows) ∧
    (∀ ch ∈ exState9.chats, ch.id ≠ 6 →
      ch ∈ (delete_chat_and_related_data exState9 6 10).1.chats) ∧
    (∀ msg ∈ exState9.messages, msg.chat ≠ 6 →
      msg ∈ (delete_chat_and_related_data exState9 6 10).1.messages) :=
  delete_chat_frame exState9 6 10 ⟨6, 10, 20⟩ (by decide) (by decide) (by decide)
    (by decide) (by decide)

/-! ## The chat canonicalization invariant (C4) -/

/-- Every chat stores the pair in canonical order (participant_one not
above participant_two), and no two chats carry the same ordered pair. -/
def ChatInv (s : State) : Prop :=
  (∀ c ∈ s.chats, c.participant_one ≤ c.participant_two) ∧
  s.chats.Pairwise (fun a b =>
    ¬(a.participant_one = b.participant_one ∧ a.participant_two = b.participant_two))

theorem chatGetOrCreate_inv {s : State} {x y : Nat} (hxy : x ≤ y) (h : ChatInv s) :
    ChatInv (chatGetOrCreate s x y).1 := by
  unfold chatGetOrCreate
  cases hf : s.chats.find? (fun c => c.participant_one == x && c.participant_two == y) with
  | some c => exact h
  | none =>
      constructor
      · intro c hc
        rcases List.mem_append.mp hc with hold | hnew
        · exact h.1 c hold
        · rw [List.mem_singleton.mp hnew]
          exact hxy
      · rw [List.pairwise_append]
        refine ⟨h.2, List.pairwise_singleton _ _, ?_⟩
        intro a ha b hb
        rw [List.mem_singleton.mp hb]
        intro hcon
        have := List.find?_eq_none.mp hf a ha
        simp only [Bool.and_eq_true, beq_iff_eq] at this
        exact this ⟨hcon.1, hcon.2⟩

theorem signalStep_inv (inst : LikeR) {s : State} (c : LikeR) (h : ChatInv s) :
    ChatInv (signalStep inst s c) := by
  unfold signalStep
  split
  · exact h
  · exact chatGetOrCreate_inv min_le_max h

theorem runSignal_inv {s : State} (inst : LikeR) (h : ChatInv s) :
    ChatInv (runSignal s inst) :=
  foldl_pred_of_mem (signalStep inst) ChatInv _ s
    (fun _ a _ ht => signalStep_inv inst a ht) h

theorem like_item_inv (s : State) (i u : Nat) (h : ChatInv s) :
    ChatInv (like_item s i u).1 := by
  unfold like_item
  cases findItem s i with
  | none => exact h
  | some it =>
      dsimp only
      cases s.likes.find? (fun l => l.item == i && l.liker == u) with
      | some l => exact h
      | none => exact runSignal_inv _ h

theorem send_message_inv (s : State) (cid u : Nat) (t : String) (h : ChatInv s) :
    ChatInv (send_message s cid u t).1 := by
  unfold send_message
  cases findChat s cid with
  | none => exact h
  | some c =>
      dsimp only
      split
      · exact h
      · exact h

theorem chatInv_of_filter (s : State) (chats' : List ChatR) (p : ChatR → Bool)
    (h : ChatInv s) (heq : chats' = s.chats.filter p)
    (s2 : State) (h2 : s2.chats = chats') : ChatInv s2 := by
  constructor
  · intro c hc
    rw [h2, heq] at hc
    exact h.1 c (List.mem_filter.mp hc).1
  · rw [h2, heq]
    exact h.2.sublist (List.filter_sublist _)

theorem delete_chat_inv (s : State) (cid r : Nat) (h : ChatInv s) :
    ChatInv (delete_chat_and_related_data s cid r).1 := by
  unfold delete_chat_and_related_data
  cases findChat s cid with
  | none => exact h
  | some c =>
      dsimp only
      split
      · exact h
      · refine chatInv_of_filter s _ (fun ch => !(ch.id == c.id)) h ?_ _ rfl
        rw [dcFold_chats]

theorem deleteItem_inv (s : State) (i r : Nat) (h : ChatInv s) :
    ChatInv (deleteItem s i r).1 := by
  unfold deleteItem
  cases findItem s i with
  | none => exact h
  | some it =>
      dsimp only
      split
      · exact h
      · split
        · exact h
        · exact h

theorem mlStep_state (u : Nat) (acc : State × List MatchGroup) (m : MatchR) :
    (mlStep u acc m).1 = acc.1 ∨
    ∃ v : Nat, (mlStep u acc m).1 = (chatGetOrCreate acc.1 (Nat.min u v) (Nat.max u v)).1 := by
  unfold mlStep
  split
  · dsimp only
    split_ifs <;> first | exact Or.inl rfl | exact Or.inr ⟨_, rfl⟩
  · exact Or.inl rfl

theorem mlStep_inv (u : Nat) {acc : State × List MatchGroup} (m : MatchR)
    (h : ChatInv acc.1) : ChatInv (mlStep u acc m).1 := by
  rcases mlStep_state u acc m with heq | ⟨v, heq⟩
  · rw [heq]; exact h
  · rw [heq]; exact chatGetOrCreate_inv min_le_max h

theorem matchUserList_inv (s : State) (u : Nat) (h : ChatInv s) :
    ChatInv (matchUserList s u).1 := by
  unfold matchUserList
  generalize userMatches s u = ms
  have : ∀ (ms : List MatchR) (acc : State × List MatchGroup), ChatInv acc.1 →
      ChatInv (ms.foldl (mlStep u) acc).1 := by
    intro ms
    induction ms with
    | nil => intro acc hacc; exact hacc
    | cons m t ih =>
        intro acc hacc
        rw [List.foldl_cons]
        exact ih _ (mlStep_inv u m hacc)
  exact this ms (s, []) h

theorem applyOp_inv (s : State) (op : Op) (h : ChatInv s) : ChatInv (applyOp s op) := by
  cases op with
  | like i u => exact like_item_inv s i u h
  | send c u t => exact send_message_inv s c u t h
  | delChat c u => exact delete_chat_inv s c u h
  | delItem i u => exact deleteItem_inv s i u h
  | listMatches u => exact matchUserList_inv s u h

theorem reachable_chatInv {s : State} (h : Reachable s) : ChatInv s := by
  induction h with
  | init s hs =>
      constructor
      · intro c hc
        rw [hs.2.2.1] at hc
        cases hc
      · rw [hs.2.2.1]
        exact List.Pairwise.nil
  | step s op _ ih => exact applyOp_inv s op ih

theorem countP_le_one_of_pairwise {α : Type} (l : List α) (p : α → Bool)
    (h : l.Pairwise (fun a b => ¬(p a = true ∧ p b = true))) : l.countP p ≤ 1 := by
  induction l with
  | nil => simp
  | cons a t ih =>
      rw [List.countP_cons]
      rcases List.pairwise_cons.mp h with ⟨ha, ht⟩
      by_cases hpa : p a = true
      · have hz : t.countP p = 0 :=
          List.countP_eq_zero.mpr (fun b hb hpb => (ha b hb) ⟨hpa, hpb⟩)
        simp [hz, hpa]
      · rw [if_neg hpa]
        simpa using ih ht

/-- A fresh state with one item owned by user 7. -/
def selfInit : State := ⟨[⟨1, 7⟩], [], [], [], [], 2⟩

/-- C4 as stated is false: the state reached from an initial state by user
7 liking their own item 1 is reachable through the public operations, yet
contains a chat whose two participants are the same user. -/
theorem chat_distinct_counterexample :
    Reachable ((like_item selfInit 1 7).1) ∧
    ∃ c ∈ (like_item selfInit 1 7).1.chats, c.participant_one = c.participant_two := by
  constructor
  · exact Reachable.step selfInit (Op.like 1 7)
      (Reachable.init selfInit ⟨rfl, rfl, rfl, rfl⟩)
  · decide

/-- C4 (amended): in every reachable state every chat stores the lower
user id as participant_one (the participants need not be distinct: a chat
of a user with themselves is reachable), and at most one chat exists per
unordered pair of users. -/
theorem chat_canonical_unique (s : State) (h : Reachable s) :
    (∀ c ∈ s.chats, c.participant_one ≤ c.participant_two) ∧
    (∀ a b : Nat, countChatsFor s a b ≤ 1) := by
  have hinv := reachable_chatInv h
  refine ⟨hinv.1, ?_⟩
  intro a b
  unfold countChatsFor
  apply countP_le_one_of_pairwise
  apply hinv.2.imp_of_mem
  intro c1 c2 h1 h2 hR hcon
  apply hR
  have g1 := hinv.1 c1 h1
  have g2 := hinv.1 c2 h2
  have e1 := hcon.1
  have e2 := hcon.2
  simp only [Bool.or_eq_true, Bool.and_eq_true, beq_iff_eq] at e1 e2
  rcases e1 with ⟨ha1, hb1⟩ | ⟨ha1, hb1⟩ <;> rcases e2 with ⟨ha2, hb2⟩ | ⟨ha2, hb2⟩ <;>
    constructor <;> omega

/-- Witness for the amended C4 at the concrete reachable state produced by
the self-like of user 7. -/
theorem chat_canonical_unique_witness :
    (∀ c ∈ (like_item selfInit 1 7).1.chats, c.participant_one ≤ c.participant_two) ∧
    (∀ a b : Nat, countChatsFor (like_item selfInit 1 7).1 a b ≤ 1) :=
  chat_canonical_unique _ (Reachable.step selfInit (Op.like 1 7)
    (Reachable.init selfInit ⟨rfl, rfl, rfl, rfl⟩))

/-! ## The mutual-like scenario (C1) -/

/-- Core computation for C1: from a state whose like, match and chat
tables contain nothing involving users U1 and U2, the sequence in which
U1 likes item X (owned by U2) and then U2 likes item Y (owned by U1)
creates exactly one match pairing the two new likes and exactly one chat
for the unordered pair, and firing the signal handler again on either of
the two likes leaves the state unchanged. -/
theorem mutual_like_seq (s : State) (U1 U2 X Y : Nat)
    (hne : U1 ≠ U2)
    (hX : findItem s X = some ⟨X, U2⟩)
    (hY : findItem s Y = some ⟨Y, U1⟩)
    (h1 : ∀ l ∈ s.likes, ¬(l.liker = U1 ∧ itemOwner s l.item = some U2))
    (h2 : ∀ l ∈ s.likes, ¬(l.liker = U2 ∧ itemOwner s l.item = some U1))
    (h3 : ∀ c ∈ s.chats, ¬(c.participant_one = U1 ∧ c.participant_two = U2)
      ∧ ¬(c.participant_one = U2 ∧ c.participant_two = U1))
    (hwf : WfIds s) :
    (like_item s X U1).2 = LikeOutcome.liked ∧
    (like_item (like_item s X U1).1 Y U2).2 = LikeOutcome.liked ∧
    matchesBetweenLikes (like_item (like_item s X U1).1 Y U2).1 X U1 Y U2 = 1 ∧
    countChatsFor (like_item (like_item s X U1).1 Y U2).1 U1 U2 = 1 ∧
    (∀ l ∈ (like_item (like_item s X U1).1 Y U2).1.likes,
      (l.item = X ∧ l.liker = U1) ∨ (l.item = Y ∧ l.liker = U2) →
      create_match_and_check_chat (like_item (like_item s X U1).1 Y U2).1 l true
        = (like_item (like_item s X U1).1 Y U2).1) := by
  have howX : itemOwner s X = some U2 := by
    unfold itemOwner
    rw [hX]
    rfl
  have howY : itemOwner s Y = some U1 := by
    unfold itemOwner
    rw [hY]
    rfl
  have hXY : X ≠ Y := by
    intro h
    rw [h, hY] at hX
    simp only [Option.some_inj, ItemR.mk.injEq] at hX
    exact hne hX.2
  have hminmax : (Nat.min U2 U1 = U1 ∧ Nat.max U2 U1 = U2)
      ∨ (Nat.min U2 U1 = U2 ∧ Nat.max U2 U1 = U1) := by
    show (min U2 U1 = U1 ∧ max U2 U1 = U2) ∨ (min U2 U1 = U2 ∧ max U2 U1 = U1)
    rcases Nat.le_total U1 U2 with hle | hle
    · exact Or.inl ⟨min_eq_right hle, max_eq_left hle⟩
    · exact Or.inr ⟨min_eq_left hle, max_eq_right hle⟩
  set n := s.nextId with hn
  set L1 : LikeR := ⟨n, X, U1⟩ with hL1
  set L2 : LikeR := ⟨n + 1, Y, U2⟩ with hL2
  set s1 : State := { s with likes := s.likes ++ [L1], nextId := n + 1 } with hs1
  -- the first like creates no match: nobody liked by U2 yet
  have hnone1 : s.likes.find? (fun l => l.item == X && l.liker == U1) = none := by
    apply List.find?_eq_none.mpr
    intro l hl hp
    simp only [Bool.and_eq_true, beq_iff_eq] at hp
    exact h1 l hl ⟨hp.2, by rw [hp.1]; exact howX⟩
  have hpot1 : potentialLikes s1 L1 = [] := by
    unfold potentialLikes
    show List.filter _ (s.likes ++ [L1]) = []
    apply List.filter_eq_nil_iff.mpr
    intro c hc hp
    simp only [Bool.and_eq_true, beq_iff_eq] at hp
    have hPitem : itemOwner s c.item = some U1 := hp.1
    have hPliker : some c.liker = itemOwner s X := hp.2
    rcases List.mem_append.mp hc with hold | hnew
    · refine h2 c hold ⟨?_, hPitem⟩
      have : some c.liker = some U2 := by rw [hPliker, howX]
      exact Option.some_inj.mp this
    · rw [List.mem_singleton.mp hnew] at hPitem
      have : itemOwner s X = some U1 := hPitem
      rw [howX] at this
      exact hne (Option.some_inj.mp this).symm
  have hrun1 : runSignal s1 L1 = s1 := by
    unfold runSignal
    rw [hpot1]
    rfl
  have hstep1 : like_item s X U1 = (s1, LikeOutcome.liked) := by
    unfold like_item
    rw [hX, hnone1]
    dsimp only
    show (create_match_and_check_chat s1 L1 true, LikeOutcome.liked) = _
    rw [show create_match_and_check_chat s1 L1 true = runSignal s1 L1 from rfl, hrun1]
  -- second like
  set M : MatchR := ⟨n + 2, n + 1, n⟩ with hM
  set C : ChatR := ⟨n + 3, Nat.min U2 U1, Nat.max U2 U1⟩ with hC
  set sF : State := { s with likes := (s.likes ++ [L1]) ++ [L2], matchRows := s.matchRows ++ [M], chats := s.chats ++ [C], nextId := n + 4 } with hsF
  have hnone2 : s1.likes.find? (fun l => l.item == Y && l.liker == U2) = none := by
    show ((s.likes ++ [L1]).find? fun l => l.item == Y && l.liker == U2) = none
    apply List.find?_eq_none.mpr
    intro l hl hp
    simp only [Bool.and_eq_true, beq_iff_eq] at hp
    rcases List.mem_append.mp hl with hold | hnew
    · exact h2 l hold ⟨hp.2, by rw [hp.1]; exact howY⟩
    · rw [List.mem_singleton.mp hnew] at hp
      exact hne (by simpa using hp.2)
  set s2 : State := { s with likes := (s.likes ++ [L1]) ++ [L2], nextId := n + 2 } with hs2
  have hpot2 : potentialLikes s2 L2 = [L1] := by
    unfold potentialLikes
    show List.filter _ ((s.likes ++ [L1]) ++ [L2]) = [L1]
    rw [List.filter_append, List.filter_append]
    have hA : List.filter (fun c => itemOwner s2 c.item == some L2.liker
        && some c.liker == itemOwner s2 L2.item) s.likes = [] := by
      apply List.filter_eq_nil_iff.mpr
      intro c hc hp
      simp only [Bool.and_eq_true, beq_iff_eq] at hp
      have hPitem : itemOwner s c.item = some U2 := hp.1
      have hPliker : some c.liker = itemOwner s Y := hp.2
      refine h1 c hc ⟨?_, hPitem⟩
      have : some c.liker = some U1 := by rw [hPliker, howY]
      exact Option.some_inj.mp this
    have hB : List.filter (fun c => itemOwner s2 c.item == some L2.liker
        && some c.liker == itemOwner s2 L2.item) [L1] = [L1] := by
      have e1 : itemOwner s X = some U2 := howX
      have e2 : itemOwner s Y = some U1 := howY
      simp only [List.filter_cons, List.filter_nil]
      rw [if_pos]
      simp only [Bool.and_eq_true, beq_iff_eq]
      exact ⟨e1, e2.symm⟩
    have hD : List.filter (fun c => itemOwner s2 c.item == some L2.liker
        && some c.liker == itemOwner s2 L2.item) [L2] = [] := by
      simp only [List.filter_cons, List.filter_nil]
      rw [if_neg]
      simp only [Bool.and_eq_true, beq_iff_eq, not_and]
      intro hcon
      have : itemOwner s Y = some U2 := hcon
      rw [howY] at this
      exact absurd (Option.some_inj.mp this) hne
    rw [hA, hB, hD]
    rfl
  have hnomatch2 : matchExistsBetween s2 L2.id L1.id = false := by
    unfold matchExistsBetween
    rw [Bool.eq_false_iff]
    intro hany
    rcases List.any_eq_true.mp hany with ⟨m, hm, hp⟩
    have hm' : m ∈ s.matchRows := hm
    have hlt := (hwf.2.2.1 m hm').2.1
    simp only [Bool.or_eq_true, Bool.and_eq_true, beq_iff_eq] at hp
    rcases hp with ⟨ha, _⟩ | ⟨ha, _⟩ <;> omega
  have hnochat : (({ s2 with matchRows := s2.matchRows ++ [⟨s2.nextId, L2.id, L1.id⟩], nextId := s2.nextId + 1 } : State)).chats.find? (fun c => c.participant_one == Nat.min U2 U1 && c.participant_two == Nat.max U2 U1) = none := by
    show s.chats.find? _ = none
    apply List.find?_eq_none.mpr
    intro c hc hp
    simp only [Bool.and_eq_true, beq_iff_eq] at hp
    rcases hminmax with ⟨hmin, hmax⟩ | ⟨hmin, hmax⟩
    · rw [hmin, hmax] at hp
      exact (h3 c hc).1 hp
    · rw [hmin, hmax] at hp
      exact (h3 c hc).2 hp
  have hrun2 : runSignal s2 L2 = sF := by
    unfold runSignal
    rw [hpot2]
    show signalStep L2 s2 L1 = sF
    unfold signalStep
    rw [if_neg (by rw [hnomatch2]; exact Bool.false_ne_true)]
    show (chatGetOrCreate _ (Nat.min U2 U1) (Nat.max U2 U1)).1 = sF
    unfold chatGetOrCreate
    rw [hnochat]
  have hstep2 : like_item s1 Y U2 = (sF, LikeOutcome.liked) := by
    unfold like_item
    have hY1 : findItem s1 Y = some ⟨Y, U1⟩ := hY
    rw [hY1, hnone2]
    dsimp only
    show (create_match_and_check_chat s2 L2 true, LikeOutcome.liked) = _
    rw [show create_match_and_check_chat s2 L2 true = runSignal s2 L2 from rfl, hrun2]
  have hfinal : (like_item (like_item s X U1).1 Y U2).1 = sF := by
    rw [hstep1]
    show (like_item s1 Y U2).1 = sF
    rw [hstep2]
  -- lookups in the final state
  have hfindOld : ∀ lid, lid < n → findLike sF lid = findLike s lid := by
    intro lid hlt
    show List.find? _ ((s.likes ++ [L1]) ++ [L2]) = _
    rw [List.find?_append, List.find?_append]
    have e1 : List.find? (fun l => l.id == lid) [L1] = none := by
      simp only [List.find?_singleton]
      rw [if_neg]
      simp only [beq_iff_eq, hL1]
      omega
    have e2 : List.find? (fun l => l.id == lid) [L2] = none := by
      simp only [List.find?_singleton]
      rw [if_neg]
      simp only [beq_iff_eq, hL2]
      omega
    rw [e1, e2, Option.or_none, Option.or_none]
    rfl
  have hfind0 : List.find? (fun l => l.id == n) s.likes = none := by
    apply List.find?_eq_none.mpr
    intro l hl
    have := hwf.2.1 l hl
    simp only [beq_iff_eq]
    omega
  have hfind0' : List.find? (fun l => l.id == n + 1) s.likes = none := by
    apply List.find?_eq_none.mpr
    intro l hl
    have := hwf.2.1 l hl
    simp only [beq_iff_eq]
    omega
  have hfindL1 : findLike sF n = some L1 := by
    show List.find? _ ((s.likes ++ [L1]) ++ [L2]) = _
    rw [List.find?_append, List.find?_append, hfind0]
    simp [hL1]
  have hfindL2 : findLike sF (n + 1) = some L2 := by
    show List.find? _ ((s.likes ++ [L1]) ++ [L2]) = _
    rw [List.find?_append, List.find?_append, hfind0']
    have : List.find? (fun l => l.id == n + 1) [L1] = none := by
      simp [hL1]
    rw [this]
    simp [hL2]
  refine ⟨by rw [hstep1], by rw [hstep1]; show (like_item s1 Y U2).2 = _; rw [hstep2], ?_, ?_, ?_⟩
  · -- exactly one match pairing the two likes
    rw [hfinal]
    unfold matchesBetweenLikes
    show List.countP _ (s.matchRows ++ [M]) = 1
    rw [List.countP_append]
    have hz : List.countP (fun m => (likeHas sF m.like_one X U1 && likeHas sF m.like_two Y U2)
        || (likeHas sF m.like_one Y U2 && likeHas sF m.like_two X U1)) s.matchRows = 0 := by
      apply List.countP_eq_zero.mpr
      intro m hm hp
      have hlt1 := (hwf.2.2.1 m hm).2.1
      have hXfalse : likeHas sF m.like_one X U1 = false := by
        unfold likeHas
        rw [hfindOld m.like_one hlt1]
        cases hfl : findLike s m.like_one with
        | none => rfl
        | some l =>
            have hlmem : l ∈ s.likes := List.mem_of_find?_eq_some hfl
            rw [Bool.eq_false_iff]
            intro hcon
            simp only [Bool.and_eq_true, beq_iff_eq] at hcon
            exact h1 l hlmem ⟨hcon.2, by rw [hcon.1]; exact howX⟩
      have hYfalse : likeHas sF m.like_one Y U2 = false := by
        unfold likeHas
        rw [hfindOld m.like_one hlt1]
        cases hfl : findLike s m.like_one with
        | none => rfl
        | some l =>
            have hlmem : l ∈ s.likes := List.mem_of_find?_eq_some hfl
            rw [Bool.eq_false_iff]
            intro hcon
            simp only [Bool.and_eq_true, beq_iff_eq] at hcon
            exact h2 l hlmem ⟨hcon.2, by rw [hcon.1]; exact howY⟩
      rw [hXfalse, hYfalse] at hp
      simp at hp
    rw [hz]
    have hone : List.countP (fun m => (likeHas sF m.like_one X U1 && likeHas sF m.like_two Y U2)
        || (likeHas sF m.like_one Y U2 && likeHas sF m.like_two X U1)) [M] = 1 := by
      have hhas1 : likeHas sF M.like_one Y U2 = true := by
        unfold likeHas
        show (match findLike sF (n + 1) with
          | some l => l.item == Y && l.liker == U2
          | none => false) = true
        rw [hfindL2]
        simp [hL2]
      have hhas2 : likeHas sF M.like_two X U1 = true := by
        unfold likeHas
        show (match findLike sF n with
          | some l => l.item == X && l.liker == U1
          | none => false) = true
        rw [hfindL1]
        simp [hL1]
      simp only [List.countP_cons, List.countP_nil]
      rw [if_pos]
      simp only [Bool.or_eq_true, Bool.and_eq_true]
      right
      exact ⟨hhas1, hhas2⟩
    rw [hone]
  · -- exactly one chat for the unordered pair
    rw [hfinal]
    unfold countChatsFor
    show List.countP _ (s.chats ++ [C]) = 1
    rw [List.countP_append]
    have hz : List.countP (fun c => (c.participant_one == U1 && c.participant_two == U2)
        || (c.participant_one == U2 && c.participant_two == U1)) s.chats = 0 := by
      apply List.countP_eq_zero.mpr
      intro c hc hp
      simp only [Bool.or_eq_true, Bool.and_eq_true, beq_iff_eq] at hp
      rcases hp with hp | hp
      · exact (h3 c hc).1 hp
      · exact (h3 c hc).2 hp
    rw [hz]
    have hone : List.countP (fun c => (c.participant_one == U1 && c.participant_two == U2)
        || (c.participant_one == U2 && c.participant_two == U1)) [C] = 1 := by
      simp only [List.countP_cons, List.countP_nil]
      rw [if_pos]
      simp only [Bool.or_eq_true, Bool.and_eq_true, beq_iff_eq, hC]
      exact hminmax
    rw [hone]
  · -- re-triggering the signal on either like changes nothing
    rw [hfinal]
    intro l hl hpat
    have hlchar : l = L1 ∨ l = L2 := by
      rcases List.mem_append.mp hl with hl' | hl'
      · rcases List.mem_append.mp hl' with hs' | hs'
        · exfalso
          rcases hpat with ⟨hi, hk⟩ | ⟨hi, hk⟩
          · exact h1 l hs' ⟨hk, by rw [hi]; exact howX⟩
          · exact h2 l hs' ⟨hk, by rw [hi]; exact howY⟩
        · exact Or.inl (List.mem_singleton.mp hs')
      · exact Or.inr (List.mem_singleton.mp hl')
    have hpotF2 : potentialLikes sF L2 = [L1] := by
      unfold potentialLikes
      show List.filter _ ((s.likes ++ [L1]) ++ [L2]) = [L1]
      rw [List.filter_append, List.filter_append]
      have hA : List.filter (fun c => itemOwner sF c.item == some L2.liker
          && some c.liker == itemOwner sF L2.item) s.likes = [] := by
        apply List.filter_eq_nil_iff.mpr
        intro c hc hp
        simp only [Bool.and_eq_true, beq_iff_eq] at hp
        have hPitem : itemOwner s c.item = some U2 := hp.1
        have hPliker : some c.liker = itemOwner s Y := hp.2
        refine h1 c hc ⟨?_, hPitem⟩
        have : some c.liker = some U1 := by rw [hPliker, howY]
        exact Option.some_inj.mp this
      have hB : List.filter (fun c => itemOwner sF c.item == some L2.liker
          && some c.liker == itemOwner sF L2.item) [L1] = [L1] := by
        simp only [List.filter_cons, List.filter_nil]
        rw [if_pos]
        simp only [Bool.and_eq_true, beq_iff_eq]
        exact ⟨(howX : itemOwner s X = some U2), ((howY : itemOwner s Y = some U1)).symm⟩
      have hD : List.filter (fun c => itemOwner sF c.item == some L2.liker
          && some c.liker == itemOwner sF L2.item) [L2] = [] := by
        simp only [List.filter_cons, List.filter_nil]
        rw [if_neg]
        simp only [Bool.and_eq_true, beq_iff_eq, not_and]
        intro hcon
        have : itemOwner s Y = some U2 := hcon
        rw [howY] at this
        exact absurd (Option.some_inj.mp this) hne
      rw [hA, hB, hD]
      rfl
    have hmatchF2 : matchExistsBetween sF L2.id L1.id = true := by
      unfold matchExistsBetween
      apply List.any_eq_true.mpr
      refine ⟨M, List.mem_append_right _ (List.mem_singleton.mpr rfl), ?_⟩
      simp [hM, hL1, hL2]
    have hrunF2 : runSignal sF L2 = sF := by
      unfold runSignal
      rw [hpotF2]
      show signalStep L2 sF L1 = sF
      unfold signalStep
      rw [if_pos hmatchF2]
    have hpotF1 : potentialLikes sF L1 = [L2] := by
      unfold potentialLikes
      show List.filter _ ((s.likes ++ [L1]) ++ [L2]) = [L2]
      rw [List.filter_append, List.filter_append]
      have hA : List.filter (fun c => itemOwner sF c.item == some L1.liker
          && some c.liker == itemOwner sF L1.item) s.likes = [] := by
        apply List.filter_eq_nil_iff.mpr
        intro c hc hp
        simp only [Bool.and_eq_true, beq_iff_eq] at hp
        have hPitem : itemOwner s c.item = some U1 := hp.1
        have hPliker : some c.liker = itemOwner s X := hp.2
        refine h2 c hc ⟨?_, hPitem⟩
        have : some c.liker = some U2 := by rw [hPliker, howX]
        exact Option.some_inj.mp this
      have hB : List.filter (fun c => itemOwner sF c.item == some L1.liker
          && some c.liker == itemOwner sF L1.item) [L1] = [] := by
        simp only [List.filter_cons, List.filter_nil]
        rw [if_neg]
        simp only [Bool.and_eq_true, beq_iff_eq, not_and]
        intro hcon
        have : itemOwner s X = some U1 := hcon
        rw [howX] at this
        exact absurd (Option.some_inj.mp this) hne.symm
      have hD : List.filter (fun c => itemOwner sF c.item == some L1.liker
          && some c.liker == itemOwner sF L1.item) [L2] = [L2] := by
        simp only [List.filter_cons, List.filter_nil]
        rw [if_pos]
        simp only [Bool.and_eq_true, beq_iff_eq]
        exact ⟨(howY : itemOwner s Y = some U1), ((howX : itemOwner s X = some U2)).symm⟩
      rw [hA, hB, hD]
      rfl
    have hmatchF1 : matchExistsBetween sF L1.id L2.id = true := by
      unfold matchExistsBetween
      apply List.any_eq_true.mpr
      refine ⟨M, List.mem_append_right _ (List.mem_singleton.mpr rfl), ?_⟩
      simp [hM, hL1, hL2]
    have hrunF1 : runSignal sF L1 = sF := by
      unfold runSignal
      rw [hpotF1]
      show signalStep L1 sF L2 = sF
      unfold signalStep
      rw [if_pos hmatchF1]
    rcases hlchar with h | h
    · rw [h, show create_match_and_check_chat sF L1 true = runSignal sF L1 from rfl, hrunF1]
    · rw [h, show create_match_and_check_chat sF L2 true = runSignal sF L2 from rfl, hrunF2]

theorem matchesBetweenLikes_comm (s : State) (i1 u1 i2 u2 : Nat) :
    matchesBetweenLikes s i1 u1 i2 u2 = matchesBetweenLikes s i2 u2 i1 u1 := by
  unfold matchesBetweenLikes
  apply List.countP_congr
  intro m _
  simp only [Bool.or_eq_true, Bool.and_eq_true]
  tauto

theorem countChatsFor_comm (s : State) (a b : Nat) :
    countChatsFor s a b = countChatsFor s b a := by
  unfold countChatsFor
  apply List.countP_congr
  intro c _
  simp only [Bool.or_eq_true, Bool.and_eq_true]
  tauto

/-- C1: starting from a state with no likes, matches or chats involving
the distinct users U1 and U2, after U1 likes item X (owned by U2) and U2
likes item Y (owned by U1), in either order, both like actions succeed,
exactly one match pairs the two likes, exactly one chat exists for the
unordered pair, and firing the match evaluation again on either of the
two created likes changes nothing. -/
theorem mutual_like_match_chat (s : State) (U1 U2 X Y : Nat)
    (hne : U1 ≠ U2)
    (hX : findItem s X = some ⟨X, U2⟩)
    (hY : findItem s Y = some ⟨Y, U1⟩)
    (h1 : ∀ l ∈ s.likes, ¬(l.liker = U1 ∧ itemOwner s l.item = some U2))
    (h2 : ∀ l ∈ s.likes, ¬(l.liker = U2 ∧ itemOwner s l.item = some U1))
    (h3 : ∀ c ∈ s.chats, ¬(c.participant_one = U1 ∧ c.participant_two = U2)
      ∧ ¬(c.participant_one = U2 ∧ c.participant_two = U1))
    (hwf : WfIds s) :
    ((like_item s X U1).2 = LikeOutcome.liked ∧
     (like_item (like_item s X U1).1 Y U2).2 = LikeOutcome.liked ∧
     matchesBetweenLikes (like_item (like_item s X U1).1 Y U2).1 X U1 Y U2 = 1 ∧
     countChatsFor (like_item (like_item s X U1).1 Y U2).1 U1 U2 = 1 ∧
     (∀ l ∈ (like_item (like_item s X U1).1 Y U2).1.likes,
       (l.item = X ∧ l.liker = U1) ∨ (l.item = Y ∧ l.liker = U2) →
       create_match_and_check_chat (like_item (like_item s X U1).1 Y U2).1 l true
         = (like_item (like_item s X U1).1 Y U2).1)) ∧
    ((like_item s Y U2).2 = LikeOutcome.liked ∧
     (like_item (like_item s Y U2).1 X U1).2 = LikeOutcome.liked ∧
     matchesBetweenLikes (like_item (like_item s Y U2).1 X U1).1 X U1 Y U2 = 1 ∧
     countChatsFor (like_item (like_item s Y U2).1 X U1).1 U1 U2 = 1 ∧
     (∀ l ∈ (like_item (like_item s Y U2).1 X U1).1.likes,
       (l.item = X ∧ l.liker = U1) ∨ (l.item = Y ∧ l.liker = U2) →
       create_match_and_check_chat (like_item (like_item s Y U2).1 X U1).1 l true
         = (like_item (like_item s Y U2).1 X U1).1)) := by
  constructor
  · exact mutual_like_seq s U1 U2 X Y hne hX hY h1 h2 h3 hwf
  · have h3' : ∀ c ∈ s.chats, ¬(c.participant_one = U2 ∧ c.participant_two = U1)
        ∧ ¬(c.participant_one = U1 ∧ c.participant_two = U2) :=
      fun c hc => ⟨(h3 c hc).2, (h3 c hc).1⟩
    obtain ⟨ha, hb, hm, hc, hr⟩ :=
      mutual_like_seq s U2 U1 Y X (fun h => hne h.symm) hY hX h2 h1 h3' hwf
    refine ⟨ha, hb, ?_, ?_, ?_⟩
    · rw [matchesBetweenLikes_comm]
      exact hm
    · rw [countChatsFor_comm]
      exact hc
    · intro l hl hp
      exact hr l hl hp.symm

/-- A concrete fresh database for the C1 witness: item 1 owned by 20,
item 2 owned by 10, and nothing else. -/
def exInit : State := ⟨[⟨1, 20⟩, ⟨2, 10⟩], [], [], [], [], 3⟩

/-- Witness for C1: users 10 and 20 like each other's items in both
orders starting from the fresh database exInit. -/
theorem mutual_like_match_chat_witness :
    (((like_item exInit 1 10).2 = LikeOutcome.liked ∧
     (like_item (like_item exInit 1 10).1 2 20).2 = LikeOutcome.liked ∧
     matchesBetweenLikes (like_item (like_item exInit 1 10).1 2 20).1 1 10 2 20 = 1 ∧
     countChatsFor (like_item (like_item exInit 1 10).1 2 20).1 10 20 = 1 ∧
     (∀ l ∈ (like_item (like_item exInit 1 10).1 2 20).1.likes,
       (l.item = 1 ∧ l.liker = 10) ∨ (l.item = 2 ∧ l.liker = 20) →
       create_match_and_check_chat (like_item (like_item exInit 1 10).1 2 20).1 l true
         = (like_item (like_item exInit 1 10).1 2 20).1)) ∧
    ((like_item exInit 2 20).2 = LikeOutcome.liked ∧
     (like_item (like_item exInit 2 20).1 1 10).2 = LikeOutcome.liked ∧
     matchesBetweenLikes (like_item (like_item exInit 2 20).1 1 10).1 1 10 2 20 = 1 ∧
     countChatsFor (like_item (like_item exInit 2 20).1 1 10).1 10 20 = 1 ∧
     (∀ l ∈ (like_item (like_item exInit 2 20).1 1 10).1.likes,
       (l.item = 1 ∧ l.liker = 10) ∨ (l.item = 2 ∧ l.liker = 20) →
       create_match_and_check_chat (like_item (like_item exInit 2 20).1 1 10).1 l true
         = (like_item (like_item exInit 2 20).1 1 10).1))) :=
  mutual_like_match_chat exInit 10 20 1 2 (by decide) (by decide) (by decide)
    (by decide) (by decide) (by decide)
    (by refine ⟨?_, ?_, ?_, ?_, ?_⟩ <;> decide)

/-! ## Specification reading of the match listing (C7)

The following three functions restate, match by match, the words of the
contract for MatchUserListView.get_queryset: the other participant of a
match seen from user u, the item u liked in it, and the item the other
user liked in it.  They are compared against the grouped structure the
implementation builds. -/

/-- The other participant of a match from the point of view of user u,
when both constituent likes resolve. -/
def matchOtherSpec (s : State) (u : Nat) (m : MatchR) : Option Nat :=
  match findLike s m.like_one, findLike s m.like_two with
  | some l1, some l2 => some (if l1.liker = u then l2.liker else l1.liker)
  | _, _ => none

/-- The item user u liked in the match. -/
def matchItemFromUserSpec (s : State) (u : Nat) (m : MatchR) : Option Nat :=
  match findLike s m.like_one, findLike s m.like_two with
  | some l1, some l2 => some (if l1.liker = u then l1.item else l2.item)
  | _, _ => none

/-- The item the other participant liked in the match. -/
def matchItemFromThemSpec (s : State) (u : Nat) (m : MatchR) : Option Nat :=
  match findLike s m.like_one, findLike s m.like_two with
  | some l1, some l2 => some (if l1.liker = u then l2.item else l1.item)
  | _, _ => none

theorem findLike_eq_of_likes_eq {s1 s2 : State} (h : s1.likes = s2.likes) (i : Nat) :
    findLike s1 i = findLike s2 i := by
  unfold findLike
  rw [h]

theorem mlStep_likes (u : Nat) (acc : State × List MatchGroup) (m : MatchR) :
    (mlStep u acc m).1.likes = acc.1.likes := by
  rcases mlStep_state u acc m with heq | ⟨v, heq⟩
  · rw [heq]
  · rw [heq, chatGetOrCreate_likes]

theorem mlStep_chats_mono (u : Nat) (acc : State × List MatchGroup) (m : MatchR) :
    ∀ c ∈ acc.1.chats, c ∈ (mlStep u acc m).1.chats := by
  intro c hc
  rcases mlStep_state u acc m with heq | ⟨v, heq⟩
  · rw [heq]; exact hc
  · rw [heq]; exact chatGetOrCreate_chats_mono _ _ _ c hc

theorem mlStep_eq_none1 (u : Nat) (st : State) (gs : List MatchGroup) (m : MatchR)
    (hm1 : findLike st m.like_one = none) : mlStep u (st, gs) m = (st, gs) := by
  unfold mlStep
  simp only [hm1]

theorem mlStep_eq_some_none (u : Nat) (st : State) (gs : List MatchGroup) (m : MatchR)
    (l1 : LikeR) (hm1 : findLike st m.like_one = some l1)
    (hm2 : findLike st m.like_two = none) : mlStep u (st, gs) m = (st, gs) := by
  unfold mlStep
  simp only [hm1, hm2]

theorem mlStep_eq_some (u : Nat) (st : State) (gs : List MatchGroup) (m : MatchR)
    (l1 l2 : LikeR) (hm1 : findLike st m.like_one = some l1)
    (hm2 : findLike st m.like_two = some l2) :
    mlStep u (st, gs) m =
      (if gs.any (fun g => g.other_user == (if l1.liker = u then l2.liker else l1.liker)) then
        (st, gs.map (fun g =>
          if g.other_user == (if l1.liker = u then l2.liker else l1.liker) then
            { g with
              items_from_user := g.items_from_user.insert (if l1.liker = u then l1.item else l2.item),
              items_from_them := g.items_from_them.insert (if l1.liker = u then l2.item else l1.item) }
          else g))
      else
        ((chatGetOrCreate st (Nat.min u (if l1.liker = u then l2.liker else l1.liker))
            (Nat.max u (if l1.liker = u then l2.liker else l1.liker))).1,
         gs ++ [⟨if l1.liker = u then l2.liker else l1.liker,
           [if l1.liker = u then l1.item else l2.item],
           [if l1.liker = u then l2.item else l1.item],
           (chatGetOrCreate st (Nat.min u (if l1.liker = u then l2.liker else l1.liker))
             (Nat.max u (if l1.liker = u then l2.liker else l1.liker))).2⟩])) := by
  unfold mlStep
  simp only [hm1, hm2]

/-- The running invariant of the grouping loop: the state keeps the
original like table, group keys are pairwise distinct, the group keys are
exactly the other-participants of the processed matches, the item sets of
every group are exactly the items of the processed matches with that
other-participant, and every group holds a chat for its canonical pair. -/
def MLInv (s0 : State) (u : Nat) (st : State) (gs : List MatchGroup)
    (done : List MatchR) : Prop :=
  st.likes = s0.likes ∧
  (gs.map (fun g => g.other_user)).Nodup ∧
  (∀ v, (∃ g ∈ gs, g.other_user = v) ↔ (∃ m ∈ done, matchOtherSpec s0 u m = some v)) ∧
  (∀ g ∈ gs, ∀ i,
    (i ∈ g.items_from_user ↔ ∃ m ∈ done,
      matchOtherSpec s0 u m = some g.other_user ∧ matchItemFromUserSpec s0 u m = some i) ∧
    (i ∈ g.items_from_them ↔ ∃ m ∈ done,
      matchOtherSpec s0 u m = some g.other_user ∧ matchItemFromThemSpec s0 u m = some i)) ∧
  (∀ g ∈ gs, ∃ c ∈ st.chats, c.id = g.chat ∧
    c.participant_one = Nat.min u g.other_user ∧ c.participant_two = Nat.max u g.other_user)

theorem exists_mem_append_singleton {α : Type} (P : α → Prop) (l : List α) (a : α) :
    (∃ x ∈ l ++ [a], P x) ↔ (∃ x ∈ l, P x) ∨ P a := by
  constructor
  · rintro ⟨x, hx, hPx⟩
    rcases List.mem_append.mp hx with h | h
    · exact Or.inl ⟨x, h, hPx⟩
    · rw [List.mem_singleton.mp h] at hPx
      exact Or.inr hPx
  · rintro (⟨x, hx, hPx⟩ | hPa)
    · exact ⟨x, List.mem_append_left _ hx, hPx⟩
    · exact ⟨a, List.mem_append_right _ (List.mem_singleton.mpr rfl), hPa⟩

theorem mlStep_preserves (s0 : State) (u : Nat) (st : State) (gs : List MatchGroup)
    (done : List MatchR) (m : MatchR) (h : MLInv s0 u st gs done) :
    MLInv s0 u (mlStep u (st, gs) m).1 (mlStep u (st, gs) m).2 (done ++ [m]) := by
  obtain ⟨hlikes, hnodup, hkeys, hitems, hchats⟩ := h
  have hfl : ∀ i, findLike s0 i = findLike st i :=
    fun i => (findLike_eq_of_likes_eq hlikes i).symm
  cases hm1 : findLike st m.like_one with
  | none =>
      rw [mlStep_eq_none1 u st gs m hm1]
      have hO : matchOtherSpec s0 u m = none := by
        unfold matchOtherSpec
        rw [hfl m.like_one, hm1]
      refine ⟨hlikes, hnodup, ?_, ?_, hchats⟩
      · intro v
        rw [exists_mem_append_singleton _ done m, hO, hkeys v]
        constructor
        · exact fun h => Or.inl h
        · rintro (h | hfalse)
          · exact h
          · exact absurd hfalse (by simp)
      · intro g hg i
        have hthis := hitems g hg i
        constructor
        · rw [exists_mem_append_singleton _ done m, hO, hthis.1]
          constructor
          · exact fun h => Or.inl h
          · rintro (h | ⟨hfalse, _⟩)
            · exact h
            · exact absurd hfalse (by simp)
        · rw [exists_mem_append_singleton _ done m, hO, hthis.2]
          constructor
          · exact fun h => Or.inl h
          · rintro (h | ⟨hfalse, _⟩)
            · exact h
            · exact absurd hfalse (by simp)
  | some l1 =>
    cases hm2 : findLike st m.like_two with
    | none =>
        rw [mlStep_eq_some_none u st gs m l1 hm1 hm2]
        have hO : matchOtherSpec s0 u m = none := by
          unfold matchOtherSpec
          rw [hfl m.like_one, hm1, hfl m.like_two, hm2]
        refine ⟨hlikes, hnodup, ?_, ?_, hchats⟩
        · intro v
          rw [exists_mem_append_singleton _ done m, hO, hkeys v]
          constructor
          · exact fun h => Or.inl h
          · rintro (h | hfalse)
            · exact h
            · exact absurd hfalse (by simp)
        · intro g hg i
          have hthis := hitems g hg i
          constructor
          · rw [exists_mem_append_singleton _ done m, hO, hthis.1]
            constructor
            · exact fun h => Or.inl h
            · rintro (h | ⟨hfalse, _⟩)
              · exact h
              · exact absurd hfalse (by simp)
          · rw [exists_mem_append_singleton _ done m, hO, hthis.2]
            constructor
            · exact fun h => Or.inl h
            · rintro (h | ⟨hfalse, _⟩)
              · exact h
              · exact absurd hfalse (by simp)
    | some l2 =>
      rw [mlStep_eq_some u st gs m l1 l2 hm1 hm2]
      have hO : matchOtherSpec s0 u m = some (if l1.liker = u then l2.liker else l1.liker) := by
        unfold matchOtherSpec
        rw [hfl m.like_one, hm1, hfl m.like_two, hm2]
      have hIU : matchItemFromUserSpec s0 u m
          = some (if l1.liker = u then l1.item else l2.item) := by
        unfold matchItemFromUserSpec
        rw [hfl m.like_one, hm1, hfl m.like_two, hm2]
      have hIT : matchItemFromThemSpec s0 u m
          = some (if l1.liker = u then l2.item else l1.item) := by
        unfold matchItemFromThemSpec
        rw [hfl m.like_one, hm1, hfl m.like_two, hm2]
      by_cases hany : (gs.any (fun g =>
          g.other_user == (if l1.liker = u then l2.liker else l1.liker))) = true
      · rw [if_pos hany]
        rcases List.any_eq_true.mp hany with ⟨g0, hg0, hg0eq⟩
        rw [beq_iff_eq] at hg0eq
        have hkeyEq : (List.map (fun g =>
            if g.other_user == (if l1.liker = u then l2.liker else l1.liker) then
              { g with
                items_from_user := g.items_from_user.insert (if l1.liker = u then l1.item else l2.item),
                items_from_them := g.items_from_them.insert (if l1.liker = u then l2.item else l1.item) }
            else g) gs).map (fun g => g.other_user) = gs.map (fun g => g.other_user) := by
          rw [List.map_map]
          apply List.map_congr_left
          intro g _
          by_cases hcase : (g.other_user == (if l1.liker = u then l2.liker else l1.liker)) = true
          · simp only [Function.comp_apply, hcase, if_true]
          · simp only [Function.comp_apply, Bool.not_eq_true] at hcase
            simp only [Function.comp_apply, hcase, Bool.false_eq_true, if_false]
        refine ⟨hlikes, ?_, ?_, ?_, ?_⟩
        · rw [hkeyEq]
          exact hnodup
        · intro v
          constructor
          · rintro ⟨g', hg', hg'eq⟩
            rcases List.mem_map.mp hg' with ⟨g, hg, hgdef⟩
            have hkey : g'.other_user = g.other_user := by
              rw [← hgdef]
              by_cases hcase : (g.other_user == (if l1.liker = u then l2.liker else l1.liker)) = true
              · simp only [hcase, if_true]
              · simp only [Bool.not_eq_true] at hcase
                simp only [hcase, Bool.false_eq_true, if_false]
            rcases (hkeys v).mp ⟨g, hg, by rw [← hkey, hg'eq]⟩ with ⟨m', hm', hP⟩
            exact ⟨m', List.mem_append_left _ hm', hP⟩
          · intro hr
            rw [exists_mem_append_singleton] at hr
            rcases hr with ⟨m', hm', hP⟩ | hP
            · rcases (hkeys v).mpr ⟨m', hm', hP⟩ with ⟨g, hg, hgv⟩
              refine ⟨(if g.other_user == (if l1.liker = u then l2.liker else l1.liker) then
                { g with
                  items_from_user := g.items_from_user.insert (if l1.liker = u then l1.item else l2.item),
                  items_from_them := g.items_from_them.insert (if l1.liker = u then l2.item else l1.item) }
                else g), List.mem_map_of_mem _ hg, ?_⟩
              by_cases hcase : (g.other_user == (if l1.liker = u then l2.liker else l1.liker)) = true
              · simp only [hcase, if_true]
                exact hgv
              · simp only [Bool.not_eq_true] at hcase
                simp only [hcase, Bool.false_eq_true, if_false]
                exact hgv
            · rw [hO] at hP
              have hveq : (if l1.liker = u then l2.liker else l1.liker) = v :=
                Option.some_inj.mp hP
              refine ⟨(if g0.other_user == (if l1.liker = u then l2.liker else l1.liker) then
                { g0 with
                  items_from_user := g0.items_from_user.insert (if l1.liker = u then l1.item else l2.item),
                  items_from_them := g0.items_from_them.insert (if l1.liker = u then l2.item else l1.item) }
                else g0), List.mem_map_of_mem _ hg0, ?_⟩
              rw [if_pos (beq_iff_eq.mpr hg0eq)]
              show g0.other_user = v
              rw [hg0eq, hveq]
        · intro g' hg' i
          rcases List.mem_map.mp hg' with ⟨g, hg, hgdef⟩
          by_cases hcase : g.other_user = (if l1.liker = u then l2.liker else l1.liker)
          · rw [if_pos (beq_iff_eq.mpr hcase)] at hgdef
            subst hgdef
            constructor
            · show i ∈ (List.insert (if l1.liker = u then l1.item else l2.item) g.items_from_user) ↔ _
              rw [List.mem_insert_iff, exists_mem_append_singleton, (hitems g hg i).1]
              show _ ↔ _ ∨ (matchOtherSpec s0 u m = some g.other_user
                ∧ matchItemFromUserSpec s0 u m = some i)
              rw [hO, hIU, hcase]
              constructor
              · rintro (rfl | hold)
                · exact Or.inr ⟨rfl, rfl⟩
                · exact Or.inl hold
              · rintro (hold | ⟨_, hi⟩)
                · exact Or.inr hold
                · exact Or.inl (Option.some_inj.mp hi).symm
            · show i ∈ (List.insert (if l1.liker = u then l2.item else l1.item) g.items_from_them) ↔ _
              rw [List.mem_insert_iff, exists_mem_append_singleton, (hitems g hg i).2]
              show _ ↔ _ ∨ (matchOtherSpec s0 u m = some g.other_user
                ∧ matchItemFromThemSpec s0 u m = some i)
              rw [hO, hIT, hcase]
              constructor
              · rintro (rfl | hold)
                · exact Or.inr ⟨rfl, rfl⟩
                · exact Or.inl hold
              · rintro (hold | ⟨_, hi⟩)
                · exact Or.inr hold
                · exact Or.inl (Option.some_inj.mp hi).symm
          · rw [if_neg (by simpa using hcase)] at hgdef
            subst hgdef
            have := hitems g hg i
            constructor
            · rw [exists_mem_append_singleton, this.1, hO]
              constructor
              · exact fun hold => Or.inl hold
              · rintro (hold | ⟨hoth, _⟩)
                · exact hold
                · exact absurd (Option.some_inj.mp hoth) (fun he => hcase he.symm)
            · rw [exists_mem_append_singleton, this.2, hO]
              constructor
              · exact fun hold => Or.inl hold
              · rintro (hold | ⟨hoth, _⟩)
                · exact hold
                · exact absurd (Option.some_inj.mp hoth) (fun he => hcase he.symm)
        · intro g' hg'
          rcases List.mem_map.mp hg' with ⟨g, hg, hgdef⟩
          have hsame : g'.chat = g.chat ∧ g'.other_user = g.other_user := by
            rw [← hgdef]
            by_cases hcase : (g.other_user == (if l1.liker = u then l2.liker else l1.liker)) = true
            · rw [if_pos hcase]
              exact ⟨rfl, rfl⟩
            · rw [if_neg hcase]
              exact ⟨rfl, rfl⟩
          rw [hsame.1, hsame.2]
          exact hchats g hg
      · rw [if_neg hany]
        have hnotin : ∀ g ∈ gs, g.other_user ≠ (if l1.liker = u then l2.liker else l1.liker) := by
          intro g hg hcon
          exact hany (List.any_eq_true.mpr ⟨g, hg, beq_iff_eq.mpr hcon⟩)
        refine ⟨?_, ?_, ?_, ?_, ?_⟩
        · rw [chatGetOrCreate_likes]
          exact hlikes
        · rw [List.map_append, List.nodup_append]
          refine ⟨hnodup, ?_, ?_⟩
          · simp
          · intro a ha hb
            simp only [List.map_cons, List.map_nil, List.mem_singleton] at hb
            rcases List.mem_map.mp ha with ⟨g, hg, hgdef⟩
            apply hnotin g hg
            rw [hgdef, hb]
        · intro v
          rw [exists_mem_append_singleton _ done m, hO]
          constructor
          · rintro ⟨g', hg', hg'v⟩
            rcases List.mem_append.mp hg' with hold | hnew
            · exact Or.inl ((hkeys v).mp ⟨g', hold, hg'v⟩)
            · right
              rw [List.mem_singleton.mp hnew] at hg'v
              exact congrArg some hg'v
          · rintro (hold | hnew)
            · rcases (hkeys v).mpr hold with ⟨g, hg, hgv⟩
              exact ⟨g, List.mem_append_left _ hg, hgv⟩
            · refine ⟨_, List.mem_append_right _ (List.mem_singleton.mpr rfl), ?_⟩
              exact Option.some_inj.mp hnew
        · intro g' hg' i
          rcases List.mem_append.mp hg' with hold | hnew
          · have := hitems g' hold i
            constructor
            · rw [exists_mem_append_singleton, this.1, hO]
              constructor
              · exact fun h => Or.inl h
              · rintro (h | ⟨hoth, _⟩)
                · exact h
                · exact absurd (Option.some_inj.mp hoth).symm (hnotin g' hold)
            · rw [exists_mem_append_singleton, this.2, hO]
              constructor
              · exact fun h => Or.inl h
              · rintro (h | ⟨hoth, _⟩)
                · exact h
                · exact absurd (Option.some_inj.mp hoth).symm (hnotin g' hold)
          · have hdone : ¬∃ m' ∈ done,
                matchOtherSpec s0 u m' = some (if l1.liker = u then l2.liker else l1.liker) := by
              intro hex
              rcases (hkeys _).mpr hex with ⟨g, hg, hgv⟩
              exact hnotin g hg hgv
            rw [List.mem_singleton.mp hnew]
            constructor
            · show i ∈ [if l1.liker = u then l1.item else l2.item] ↔ _
              rw [List.mem_singleton, exists_mem_append_singleton, hO, hIU]
              constructor
              · intro hi
                exact Or.inr ⟨rfl, by rw [hi]⟩
              · rintro (⟨m', hm', hoth, _⟩ | ⟨_, hi⟩)
                · exact absurd ⟨m', hm', hoth⟩ hdone
                · exact (Option.some_inj.mp hi).symm
            · show i ∈ [if l1.liker = u then l2.item else l1.item] ↔ _
              rw [List.mem_singleton, exists_mem_append_singleton, hO, hIT]
              constructor
              · intro hi
                exact Or.inr ⟨rfl, by rw [hi]⟩
              · rintro (⟨m', hm', hoth, _⟩ | ⟨_, hi⟩)
                · exact absurd ⟨m', hm', hoth⟩ hdone
                · exact (Option.some_inj.mp hi).symm
        · intro g' hg'
          rcases List.mem_append.mp hg' with hold | hnew
          · rcases hchats g' hold with ⟨c, hc, hcid, hc1, hc2⟩
            exact ⟨c, chatGetOrCreate_chats_mono st _ _ c hc, hcid, hc1, hc2⟩
          · rw [List.mem_singleton.mp hnew]
            rcases chatGetOrCreate_provides st
              (Nat.min u (if l1.liker = u then l2.liker else l1.liker))
              (Nat.max u (if l1.liker = u then l2.liker else l1.liker)) with
              ⟨c, hc, hcid, hc1, hc2⟩
            exact ⟨c, hc, hcid, hc1, hc2⟩

theorem ml_fold (s0 : State) (u : Nat) :
    ∀ (ms : List MatchR) (st : State) (gs : List MatchGroup) (done : List MatchR),
      MLInv s0 u st gs done →
      MLInv s0 u (ms.foldl (mlStep u) (st, gs)).1 (ms.foldl (mlStep u) (st, gs)).2
        (done ++ ms) := by
  intro ms
  induction ms with
  | nil =>
      intro st gs done h
      simpa using h
  | cons m t ih =>
      intro st gs done h
      rw [List.foldl_cons]
      have h' := mlStep_preserves s0 u st gs done m h
      have := ih (mlStep u (st, gs) m).1 (mlStep u (st, gs) m).2 (done ++ [m]) h'
      rw [Prod.mk.eta] at this
      rw [List.append_cons]
      exact this

/-- C7: the grouped match list returned by MatchUserListView.get_queryset
has exactly one group per other participant occurring in the matches of
user u; each group collects as items_from_user exactly the items u liked in
the matches with that participant and as items_from_them exactly the items
that participant liked; and after the call the resulting state holds, for
every group, a chat whose participants are the canonically ordered pair of
u and the other participant. -/
theorem matchUserList_spec (s : State) (u : Nat) :
    ((matchUserList s u).2.map (fun g => g.other_user)).Nodup ∧
    (∀ v, (∃ g ∈ (matchUserList s u).2, g.other_user = v)
      ↔ (∃ m ∈ userMatches s u, matchOtherSpec s u m = some v)) ∧
    (∀ g ∈ (matchUserList s u).2, ∀ i,
      (i ∈ g.items_from_user ↔ ∃ m ∈ userMatches s u,
        matchOtherSpec s u m = some g.other_user ∧ matchItemFromUserSpec s u m = some i) ∧
      (i ∈ g.items_from_them ↔ ∃ m ∈ userMatches s u,
        matchOtherSpec s u m = some g.other_user ∧ matchItemFromThemSpec s u m = some i)) ∧
    (∀ g ∈ (matchUserList s u).2, ∃ c ∈ (matchUserList s u).1.chats,
      c.id = g.chat ∧ c.participant_one = Nat.min u g.other_user
        ∧ c.participant_two = Nat.max u g.other_user) := by
  have hinit : MLInv s u s [] [] := by
    refine ⟨rfl, List.nodup_nil, ?_, ?_, ?_⟩
    · intro v
      simp
    · intro g hg
      cases hg
    · intro g hg
      cases hg
  have hres := ml_fold s u (userMatches s u) s [] [] hinit
  rw [List.nil_append] at hres
  obtain ⟨_, hnodup, hkeys, hitems, hchats⟩ := hres
  exact ⟨hnodup, hkeys, hitems, hchats⟩

end LSS
